import Mathlib

/-!
Verification of `src/e-backport.js` from `baby636/build-tools`.

The file contains two independent command-style components:
a manual-backport assistant (PR-number validation, preflight clean
check, branch setup, cherry-pick) and a compiler-cache ("goma")
provisioner (platform resolution, checksum-gated download, config-file
sync, login-timestamp cache, environment composition).

The embedding below is a shallow model of that script:

* JS numbers are modelled as exact integers (`Int`).  All integers the
  claims exercise are far below 2^53, where JS doubles are exact.
* Strings are Lean `String`s; the handful of JS string/regexp builtins
  the script uses (`parseInt`, number-to-string, `trim`,
  `startsWith`, `substring`, the `/^Login as (\w+\s\w+)$/` test) are
  given executable list-based models restricted to the ASCII behaviour
  the script relies on.
* The filesystem is a finite map from path strings to contents plus a
  set of directories; absolute paths are rendered relative to the
  repository root (`third_party/...`), which only renames keys.
* Every externally visible action (existence check, read, write,
  mkdir, recursive delete, subprocess spawn, download, unzip) is
  recorded in an effect trace; state-changing code is explicit state
  passing on `WState`.
* External process results and environment variables are inputs,
  collected in `SysEnv` (goma side) and `BackportInput` (git side).
* `process.exit` / `fatal` (from `utils/logging`, outside `src/`) are
  modelled per the spec as termination with a non-zero exit code:
  `Except.error 1` (or the explicit code where the source passes one).
-/

/-! ### JS character/string builtin models -/

/-- ASCII whitespace, as skipped by JS `parseInt` and trimmed by
`String.prototype.trim` (the script only meets ASCII output). -/
def jsWhitespace (c : Char) : Bool :=
  c == ' ' || c == '\t' || c == '\n' || c == '\r' || c == '\x0b' || c == '\x0c'

/-- The ten ASCII decimal digits, the only digits `parseInt(s, 10)`
accepts. -/
def isDigitChar (c : Char) : Bool :=
  c == '0' || c == '1' || c == '2' || c == '3' || c == '4' ||
  c == '5' || c == '6' || c == '7' || c == '8' || c == '9'

/-- Numeric value of a decimal digit character (0 on non-digits; only
applied to digits). -/
def digitVal (c : Char) : Nat :=
  if c = '0' then 0 else if c = '1' then 1 else if c = '2' then 2
  else if c = '3' then 3 else if c = '4' then 4 else if c = '5' then 5
  else if c = '6' then 6 else if c = '7' then 7 else if c = '8' then 8
  else if c = '9' then 9 else 0

/-- Decimal digit character for a value `< 10`. -/
def chrOfDigit (d : Nat) : Char :=
  if d = 0 then '0' else if d = 1 then '1' else if d = 2 then '2'
  else if d = 3 then '3' else if d = 4 then '4' else if d = 5 then '5'
  else if d = 6 then '6' else if d = 7 then '7' else if d = 8 then '8'
  else '9'

/-- Value of a digit string, most significant digit first. -/
def natOfDigits (ds : List Char) : Nat :=
  ds.foldl (fun acc c => acc * 10 + digitVal c) 0

/-- Longest leading run of decimal digits, `none` if there is none:
the digit-consuming core of JS `parseInt(s, 10)`. -/
def parseDigits (l : List Char) : Option Nat :=
  if l.takeWhile isDigitChar = [] then none
  else some (natOfDigits (l.takeWhile isDigitChar))

/-- `parseInt` after whitespace skipping: optional sign, then the
longest run of decimal digits, ignoring what follows. -/
def jsParseIntCore (c : Char) (rest : List Char) : Option Int :=
  if c = '-' then
    match parseDigits rest with
    | none => none
    | some v => some (-(v : Int))
  else if c = '+' then
    match parseDigits rest with
    | none => none
    | some v => some ((v : Int))
  else
    match parseDigits (c :: rest) with
    | none => none
    | some v => some ((v : Int))

/-- JS `parseInt(s, 10)`: skip leading whitespace, read an optional
sign, then the longest run of decimal digits, ignoring what follows;
`none` models `NaN`. -/
def jsParseInt (s : List Char) : Option Int :=
  match s.dropWhile jsWhitespace with
  | [] => none
  | c :: rest => jsParseIntCore c rest

/-- Digits of `n`, most significant first, by repeated division; the
first argument is structural fuel (`n` itself suffices). -/
def natToDigitsAux : Nat → Nat → List Char
  | 0, _ => []
  | fuel + 1, n =>
    if n = 0 then [] else natToDigitsAux fuel (n / 10) ++ [chrOfDigit (n % 10)]

/-- Canonical decimal rendering of a natural number, as produced by JS
number-to-string on integral values. -/
def jsNatToString (n : Nat) : List Char :=
  if n = 0 then ['0'] else natToDigitsAux n n

/-- JS number-to-string (template-literal coercion) on an integral
value: canonical decimal digits, `-`-prefixed when negative. -/
def jsIntToString (n : Int) : String :=
  if n < 0 then ⟨'-' :: jsNatToString n.natAbs⟩ else ⟨jsNatToString n.natAbs⟩

/-- List-based string prefix test (JS `String.prototype.startsWith`). -/
def listIsPrefix : List Char → List Char → Bool
  | [], _ => true
  | _ :: _, [] => false
  | a :: as, b :: bs => a == b && listIsPrefix as bs

/-- JS `s.startsWith(pre)`. -/
def jsStartsWith (s pre : String) : Bool :=
  listIsPrefix pre.data s.data

/-- JS `s.substring(n)` (the script only applies it to ASCII labels,
where UTF-16 units and characters coincide). -/
def jsSubstringFrom (s : String) (n : Nat) : String :=
  ⟨s.data.drop n⟩

/-- JS `s.endsWith(post)` (list-based, reducible). -/
def jsEndsWith (s post : String) : Bool :=
  listIsPrefix post.data.reverse s.data.reverse

/-- JS `s.trim()` (ASCII whitespace). -/
def jsTrim (s : String) : String :=
  ⟨((s.data.dropWhile jsWhitespace).reverse.dropWhile jsWhitespace).reverse⟩

/-- JS `\w` character class: `[A-Za-z0-9_]`. -/
def isWordChar (c : Char) : Bool :=
  c.isAlphanum || c == '_'

/-- Test of the regexp `/^Login as (\w+\s\w+)$/` from
`gomaIsAuthenticated`, specialised to the two-word tail: after the
literal prefix, one or more word characters, a single whitespace
character, one or more word characters, end of string.  Since `\w`
and `\s` are disjoint the decomposition is the maximal word prefix. -/
def loggedInPatternTest (s : String) : Bool :=
  match listIsPrefix ("Login as ").data s.data, s.data.drop 9 with
  | true, tail =>
    let a := tail.takeWhile isWordChar
    match tail.drop a.length with
    | c :: b => !a.isEmpty && jsWhitespace c && !b.isEmpty && b.all isWordChar
    | [] => false
  | false, _ => false

/-! ### The PR-number validator (e-backport.js lines 18-22)

`const prNumber = parseInt(prNumberStr, 10);`
`if (isNaN(prNumber) || `${prNumber}` !== prNumberStr) fatal(...)`. -/

/-- The backport assistant's PR-number validator: the argument must
parse as an integer and its canonical rendering must round-trip to the
original string. -/
def validateBackportNumber (s : String) : Bool :=
  match jsParseInt s.data with
  | none => false
  | some n => jsIntToString n == s

/-! ### Spec-side predicates for claim C1 -/

/-- Spec-side: `l` is the decimal representation of a non-negative
integer with no leading zeros and no extraneous characters. -/
def isCanonNatB (l : List Char) : Bool :=
  !l.isEmpty && l.all isDigitChar && (l == ['0'] || !(l.head? == some '0'))

/-- Spec-side, claim C1 as written: `s` is exactly the decimal
representation of a non-negative integer (no leading zeros, no sign,
no extraneous characters). -/
def isNonNegDecimal (s : String) : Bool :=
  isCanonNatB s.data

/-- Canonical integer strings, on character lists: a non-negative
decimal with no leading zeros, or a `-` followed by such a decimal
other than `0`. -/
def isCanonIntChars : List Char → Bool
  | [] => false
  | c :: t => if c = '-' then isCanonNatB t && !(t == ['0']) else isCanonNatB (c :: t)

/-- Spec-side, amended: `s` is the canonical decimal representation of
an integer — a non-negative decimal with no leading zeros, or a `-`
followed by such a decimal other than `0`. -/
def isCanonIntString (s : String) : Bool :=
  isCanonIntChars s.data

/-! ### Filesystem and effect-trace model -/

/-- A finite filesystem: an association list of file contents plus a
set of directories. -/
structure FileSys where
  files : List (String × String)
  dirs : List String
deriving DecidableEq

/-- First-match association lookup on the file list. -/
def lookupFile : List (String × String) → String → Option String
  | [], _ => none
  | kv :: rest, p => if kv.1 = p then some kv.2 else lookupFile rest p

/-- `fs.existsSync`: a file or a directory at `p`. -/
def fsExists (fs : FileSys) (p : String) : Bool :=
  (lookupFile fs.files p).isSome || fs.dirs.contains p

/-- `fs.writeFileSync`: create or overwrite the file at `p`. -/
def fsWrite (fs : FileSys) (p c : String) : FileSys :=
  { fs with files := (p, c) :: fs.files.filter (fun kv => !(kv.1 == p)) }

/-- Paths strictly inside the directory `p`. -/
def underDir (p q : String) : Bool :=
  listIsPrefix (p ++ "/").data q.data

/-- `rimraf.sync p`: remove the file or directory at `p` and
everything below it. -/
def fsDeleteTree (fs : FileSys) (p : String) : FileSys :=
  { files := fs.files.filter (fun kv => !(kv.1 == p || underDir p kv.1)),
    dirs := fs.dirs.filter (fun d => !(d == p || underDir p d)) }

/-- `fs.mkdirSync`. -/
def fsMkdir (fs : FileSys) (p : String) : FileSys :=
  { fs with dirs := p :: fs.dirs }

/-- One externally visible action of the script. -/
inductive Effect where
  | existsF (p : String)
  | readF (p : String)
  | writeF (p : String) (contents : String)
  | mkdirF (p : String)
  | deleteF (p : String)
  | spawnP (cmd : String) (args : List String)
  | spawnE (cmd : String) (args : List String) (env : List (String × String))
  | downloadF (url : String) (dest : String)
  | unzipF (src : String) (dest : String)
deriving DecidableEq

/-- World state threaded through the script: the filesystem and the
chronological effect trace. -/
structure WState where
  fs : FileSys
  trace : List Effect
deriving DecidableEq

/-- Initial state: given filesystem, empty trace. -/
def initSt (fs : FileSys) : WState :=
  ⟨fs, []⟩

def emit (e : Effect) (st : WState) : WState :=
  { st with trace := st.trace ++ [e] }

def stExists (p : String) (st : WState) : Bool × WState :=
  (fsExists st.fs p, emit (.existsF p) st)

def stRead (p : String) (st : WState) : Option String × WState :=
  (lookupFile st.fs.files p, emit (.readF p) st)

def stWrite (p c : String) (st : WState) : WState :=
  { fs := fsWrite st.fs p c, trace := st.trace ++ [.writeF p c] }

def stMkdir (p : String) (st : WState) : WState :=
  { fs := fsMkdir st.fs p, trace := st.trace ++ [.mkdirF p] }

def stDeleteTree (p : String) (st : WState) : WState :=
  { fs := fsDeleteTree st.fs p, trace := st.trace ++ [.deleteF p] }

def stSpawn (cmd : String) (args : List String) (st : WState) : WState :=
  emit (.spawnP cmd args) st

def stSpawnEnv (cmd : String) (args : List String) (env : List (String × String))
    (st : WState) : WState :=
  emit (.spawnE cmd args env) st

/-- The spawned `download.js` helper: fetches `url` and writes the
body to `dest` (the write is performed by the child process, so it is
recorded as the download effect). -/
def stDownload (content : String) (url dest : String) (st : WState) : WState :=
  { fs := fsWrite st.fs dest content, trace := st.trace ++ [.downloadF url dest] }

def stUnzip (src dest : String) (st : WState) : WState :=
  emit (.unzipF src dest) st

/-! ### External inputs of the goma provisioner -/

/-- Environment variables, clock, and results of the external
processes the goma provisioner invokes. -/
structure SysEnv where
  /-- `process.platform`. -/
  platform : String
  /-- `getIsArm()` from `utils/arm`. -/
  isArm : Bool
  /-- `process.env.ELECTRON_FORGE_GOMA_REDOWNLOAD` is truthy. -/
  forceRedownload : Bool
  /-- `process.env.RAW_GOMA_AUTH` is truthy. -/
  rawGomaAuth : Bool
  /-- `process.env.CI` is truthy. -/
  ci : Bool
  /-- `Date.now()`, epoch milliseconds. -/
  now : Int
  /-- `os.cpus().length`. -/
  cpus : Nat
  /-- SHA-256 digest (hex) of a file body, `crypto.createHash`. -/
  sha256 : String → String
  /-- Body served for a download URL. -/
  downloadContent : String → String
  /-- `goma_auth.py info` output, `none` when `execFileSync` throws. -/
  gomaAuthInfo : Option String
  /-- `goma_auth.py login` exit status (`none` = killed by signal). -/
  gomaLoginStatus : Option Int
  /-- `gomacc port 2` exit status. -/
  gomaccStatus : Option Int
  /-- `tar zxvf` exit status. -/
  tarStatus : Int

/-- The `config` object handed to the goma helpers (absent in CI). -/
structure GomaConfig where
  goma : Option String
  gomaSource : Option String
deriving DecidableEq

/-! ### Goma module constants (lines 122-148) -/

def gomaDir : String := "third_party/goma"

def gomaGnFile : String := "third_party/goma.gn"

def gomaShaFile : String := "third_party/goma/.sha"

def gomaBaseURL : String := "https://dev-cdn.electronjs.org/goma-clients"

def gomaLoginFile : String := "third_party/goma/last-known-login"

/-- `gomaPlatform`: `process.platform`, with 64-bit ARM macOS mapped
to a distinct key. -/
def gomaPlatform (env : SysEnv) : String :=
  if env.platform = "darwin" && env.isArm then ("darwin-arm64") else env.platform

/-- `GOMA_PLATFORM_SHAS`: primary checksum table. -/
def GOMA_PLATFORM_SHAS (p : String) : Option String :=
  if p = "darwin" then
    some ("bc4bdbe0f687cb6bf1848500704cfa24bc5bee167e768bc6c5c689417c0c44c0")
  else if p = "darwin-arm64" then
    some ("29e3e20903c780c717a1fbeb6be78ce40d70e136d1949eec6307ad11aade9447")
  else if p = "linux" then
    some ("c105c1a4d06761a4bfcae70789e757f409e4fdf4423b50328c5864bf3d639561")
  else if p = "win32" then
    some ("d7578905bb8c0d01249fc1ec6cfb7bfa6a68580ac7f5f5b95b653bce07ba8bf1")
  else none

/-- `MSFT_GOMA_PLATFORM_SHAS`: alternate-source checksum table. -/
def MSFT_GOMA_PLATFORM_SHAS (p : String) : Option String :=
  if p = "darwin" then
    some ("4738c5447b8a7bafbb6adb9df01b2f571b492ada862bd3e296892faf5b617df1")
  else if p = "darwin-arm64" then
    some ("4d2a6d98ecd5214731c089622991334e083f42100bca194a087dde7136a07fc8")
  else if p = "linux" then
    some ("dd6285146677b0134fb9b4a0b4f8341c7e57a9b4ef82db158de95f7fed5b72e2")
  else if p = "win32" then
    some ("06b6c1d5c924a7415395545ee7a99b926829fc104336830ce6385b7ba67576cd")
  else none

/-- `isSupportedPlatform = !!GOMA_PLATFORM_SHAS[gomaPlatform]`. -/
def isSupportedPlatform (env : SysEnv) : Bool :=
  (GOMA_PLATFORM_SHAS (gomaPlatform env)).isSome

/-- Per-platform archive name (lines 173-178). -/
def gomaFilename (p : String) : Option String :=
  if p = "darwin" then some ("goma-mac.tgz")
  else if p = "darwin-arm64" then some ("goma-mac-arm64.tgz")
  else if p = "linux" then some ("goma-linux.tgz")
  else if p = "win32" then some ("goma-win.zip")
  else none

/-- Archive name for the resolved platform (defined on supported
platforms, where `downloadAndPrepareGoma` uses it). -/
def gomaFilenameOf (env : SysEnv) : String :=
  (gomaFilename (gomaPlatform env)).getD ("")

/-- Expected checksum for the resolved platform and configured source
(lines 162-165): the alternate table only when
`config.gomaSource === 'msft'`. -/
def expectedSha (env : SysEnv) (cfg : Option GomaConfig) : String :=
  let primary := (GOMA_PLATFORM_SHAS (gomaPlatform env)).getD ("")
  match cfg with
  | some c =>
    if c.gomaSource = some ("msft") then
      (MSFT_GOMA_PLATFORM_SHAS (gomaPlatform env)).getD ("")
    else primary
  | none => primary

/-- Desired `goma.gn` contents (line 157). -/
def gomaGnContents : String :=
  "goma_dir = \"" ++ gomaDir ++ "\"\nuse_goma = true"

def pythonCmd : String := "python3"

def tarCmd : String := "tar"

def stopArgs : List String := ["goma_ctl.py", "stop"]

def infoArgs : List String := ["goma_auth.py", "info"]

def loginArgs : List String := ["goma_auth.py", "login"]

def ensureStartArgs : List String := ["goma_ctl.py", "ensure_start"]

/-- Download URL `{base}/{checksum}/{filename}` (line 192). -/
def downloadURL (sha filename : String) : String :=
  gomaBaseURL ++ "/" ++ sha ++ "/" ++ filename

/-- Temporary download path `path.resolve(gomaDir, '..', filename)`. -/
def tmpDownloadPath (filename : String) : String :=
  "third_party/" ++ filename

/-! ### downloadAndPrepareGoma (lines 150-229)

The linear body is split into its three sequential blocks —
`goma.gn` sync (153-161), recorded-checksum check (166-171) and the
download/verify/extract tail (173-228) — composed in order by
`downloadAndPrepareGoma`. -/

/-- Lines 153-155: create `third_party` (the parent of the goma dir)
when absent. -/
def ensureThirdParty (st : WState) : WState :=
  let p := stExists ("third_party") st
  if p.1 then p.2 else stMkdir ("third_party") p.2

/-- Lines 153-161: ensure `third_party` exists and sync `goma.gn`,
writing only when absent or different. -/
def gomaGnSync (st : WState) : WState :=
  let st := ensureThirdParty st
  let q := stExists gomaGnFile st
  if !q.1 then stWrite gomaGnFile gomaGnContents q.2
  else
    let r := stRead gomaGnFile q.2
    if r.1.getD ("") = gomaGnContents then r.2
    else stWrite gomaGnFile gomaGnContents r.2

/-- Lines 166-168: the recorded checksum file exists and matches. -/
def shaUpToDate (sha : String) (st : WState) : Bool × WState :=
  let p := stExists gomaShaFile st
  if !p.1 then (false, p.2)
  else
    let r := stRead gomaShaFile p.2
    (r.1.getD ("") == sha, r.2)

/-- Lines 173-228: stop a previous install, clean up, download the
archive, verify its SHA-256, extract, and record the checksum.  A
hash mismatch deletes the download and exits with code 1; a failed
tar extraction is fatal. -/
def performDownload (env : SysEnv) (sha : String) (st : WState) :
    Except Int (Option String) × WState :=
  let filename := gomaFilenameOf env
  let p := stExists (gomaDir ++ "/goma_ctl.py") st
  let st := if p.1 then stSpawn pythonCmd stopArgs p.2 else p.2
  let tmpDownload := tmpDownloadPath filename
  let st := stDeleteTree gomaDir st
  let st := stDeleteTree tmpDownload st
  let url := downloadURL sha filename
  let st := stDownload (env.downloadContent url) url tmpDownload st
  let r := stRead tmpDownload st
  let hash := env.sha256 (r.1.getD (""))
  if ¬ (hash = sha) then
    (.error 1, stDeleteTree tmpDownload r.2)
  else
    let finish := fun (st : WState) =>
      let st := stDeleteTree tmpDownload st
      (Except.ok (some sha), stWrite gomaShaFile sha st)
    if jsEndsWith filename (".tgz") then
      let st := stSpawn tarCmd (["zxvf", filename]) r.2
      if ¬ (env.tarStatus = 0) then (.error 1, st)
      else finish st
    else
      finish (stUnzip tmpDownload ("third_party") r.2)

/-- `downloadAndPrepareGoma(config)` (lines 150-229).  Returns the
installed checksum, or `none` for the unsupported-platform no-op. -/
def downloadAndPrepareGoma (env : SysEnv) (cfg : Option GomaConfig) (st : WState) :
    Except Int (Option String) × WState :=
  if !isSupportedPlatform env then (.ok none, st)
  else
    let st := gomaGnSync st
    let sha := expectedSha env cfg
    let u := shaUpToDate sha st
    if u.1 && !env.forceRedownload then (.ok (some sha), u.2)
    else performDownload env sha u.2

/-! ### Login-timestamp cache and authentication (lines 231-289) -/

/-- `getLastKnownLoginTime` (lines 276-280): `none` when the file is
absent; otherwise the `parseInt` of its contents (`some none` models
an unparsable file, whose `Date` never satisfies the freshness
comparison). -/
def getLastKnownLoginTime (st : WState) : Option (Option Int) × WState :=
  let p := stExists gomaLoginFile st
  if !p.1 then (none, p.2)
  else
    let r := stRead gomaLoginFile p.2
    (some (jsParseInt (r.1.getD ("")).data), r.2)

/-- `clearGomaLoginTime` (lines 282-285). -/
def clearGomaLoginTime (st : WState) : WState :=
  let p := stExists gomaLoginFile st
  if !p.1 then p.2 else stDeleteTree gomaLoginFile p.2

/-- `recordGomaLoginTime` (lines 287-289): write `Date.now()`. -/
def recordGomaLoginTime (env : SysEnv) (st : WState) : WState :=
  stWrite gomaLoginFile (jsIntToString env.now) st

/-- The 12-hour login freshness window, in milliseconds. -/
def freshnessWindowMs : Int := 1000 * 60 * 60 * 12

/-- `gomaIsAuthenticated(config)` (lines 231-249): false on
unsupported platforms; true on a login recorded within the last 12
hours; otherwise fall back to `goma_auth.py info`, treating a throw
as not authenticated. -/
def gomaIsAuthenticated (env : SysEnv) (cfg : Option GomaConfig) (st : WState) :
    Bool × WState :=
  if !isSupportedPlatform env then (false, st)
  else
    let lk := getLastKnownLoginTime st
    let fresh := match lk.1 with
      | some (some t) => decide (env.now - t < freshnessWindowMs)
      | _ => false
    if fresh then (true, lk.2)
    else
      let st := stSpawn pythonCmd infoArgs lk.2
      match env.gomaAuthInfo with
      | none => (false, st)
      | some out => (loggedInPatternTest (jsTrim out), st)

/-- `authenticateGoma(config)` (lines 251-274): prepare the client,
then log in interactively when not authenticated; a non-zero login
status is fatal, success records the login time. -/
def authenticateGoma (env : SysEnv) (cfg : Option GomaConfig) (st : WState) :
    Except Int Unit × WState :=
  if !isSupportedPlatform env then (.ok (), st)
  else
    match downloadAndPrepareGoma env cfg st with
    | (.error e, st) => (.error e, st)
    | (.ok _, st) =>
      let a := gomaIsAuthenticated env cfg st
      if a.1 then (.ok (), a.2)
      else
        let st := stSpawn pythonCmd loginArgs a.2
        if ¬ (env.gomaLoginStatus = some 0) then (.error 1, st)
        else (.ok (), recordGomaLoginTime env st)

/-! ### Environment composition and ensureGomaStart (lines 291-348) -/

/-- `gomaAuthFailureEnv(config)` (lines 318-331): fall back on auth
failure exactly in cache-only mode — explicit `goma: 'cache-only'`
config, or, with no config, the absence of `RAW_GOMA_AUTH`. -/
def gomaAuthFailureEnv (cfg : Option GomaConfig) (env : SysEnv) :
    List (String × String) :=
  let isCacheOnly := match cfg with
    | some c => c.goma == some ("cache-only")
    | none => !env.rawGomaAuth
  if isCacheOnly then [("GOMA_FALLBACK_ON_AUTH_FAILURE", "true")] else []

/-- `gomaCIEnv(config)` (lines 333-341): auto-restart the compiler
proxy only in CI with no explicit config. -/
def gomaCIEnv (cfg : Option GomaConfig) (env : SysEnv) : List (String × String) :=
  match cfg with
  | none => if env.ci then [("GOMA_START_COMPILER_PROXY", "true")] else []
  | some _ => []

/-- `gomaEnv(config)` (lines 343-348): the merge of the two policy
helpers (their key sets are disjoint). -/
def gomaEnv (cfg : Option GomaConfig) (env : SysEnv) : List (String × String) :=
  gomaAuthFailureEnv cfg env ++ gomaCIEnv cfg env

/-- `ensureGomaStart(config)` (lines 291-316): probe `gomacc port 2`;
when it fails, run `goma_ctl.py ensure_start` with the composed
environment (plus per-CPU subprocess hints on macOS).  Note: this
function has no unsupported-platform guard. -/
def ensureGomaStart (env : SysEnv) (cfg : Option GomaConfig) (st : WState) : WState :=
  let gomacc := gomaDir ++ "/" ++ (if env.platform = "win32" then ("gomacc.exe") else ("gomacc"))
  let st := stSpawn gomacc (["port", "2"]) st
  if env.gomaccStatus = some 0 then st
  else
    let subprocs : List (String × String) :=
      if env.platform = "darwin" then
        [("GOMA_MAX_SUBPROCS", jsIntToString (env.cpus : Int)),
         ("GOMA_MAX_SUBPROCS_LOW", jsIntToString (env.cpus : Int))]
      else []
    stSpawnEnv pythonCmd ensureStartArgs (gomaEnv cfg env ++ subprocs) st

/-! ### The backport assistant action (e-backport.js lines 14-109) -/

/-- Result of one `spawnSync` git invocation: exit status (`none` =
killed by signal) and captured stdout. -/
structure GitResult where
  status : Option Int
  stdout : String
deriving DecidableEq

/-- Pull-request data fetched from the API. -/
structure PRData where
  merge_commit_sha : Option String
  labels : List String

/-- External inputs of one backport run: the authenticated user, the
fetched PR, the interactively chosen branch, and the git oracle
mapping an argument list to its result. -/
structure BackportInput where
  user_login : String
  pr : PRData
  chosenBranch : String
  git : List String → GitResult

/-- Label scan (lines 38-40): branches named by `needs-manual-bp/`
labels (16 = length of the prefix, as in `substring(16)`). -/
def backportTargets (labels : List String) : List String :=
  (labels.filter (fun l => jsStartsWith l ("needs-manual-bp/"))).map
    (fun l => jsSubstringFrom l 16)

/-- Deterministic backport branch name (line 80). -/
def manualBpBranch (login : String) (prNumber : Int) (targetBranch : String) : String :=
  "manual-bp/" ++ login ++ "/pr/" ++ jsIntToString prNumber ++ "/branch/" ++ targetBranch

def statusArgs : List String := ["status", "--porcelain"]

def checkoutArgs (b : String) : List String := ["checkout", b]

def pullArgs (b : String) : List String := ["pull", "origin", b]

def branchDeleteArgs (n : String) : List String := ["branch", "-D", n]

def checkoutNewArgs (n : String) : List String := ["checkout", "-b", n]

def cherryPickArgs (sha : String) : List String := ["cherry-pick", sha]

/-- One git invocation: record the call, return the oracle's result. -/
def gitCall (inp : BackportInput) (args : List String) (tr : List (List String)) :
    GitResult × List (List String) :=
  (inp.git args, tr ++ [args])

/-- The `program.action` body (lines 17-107): validate the PR number,
require a merge commit and at least one backport label, preflight the
working tree, then checkout / pull / delete stale branch / create
branch / cherry-pick.  The second component is the chronological list
of git invocations; `Except.error 1` models a `fatal` halt. -/
def backportAction (inp : BackportInput) (prStr : String) :
    Except Int Unit × List (List String) :=
  match jsParseInt prStr.data with
  | none => (.error 1, [])
  | some prNumber =>
    if ¬ (jsIntToString prNumber = prStr) then (.error 1, [])
    else
      match inp.pr.merge_commit_sha with
      | none => (.error 1, [])
      | some mergeSha =>
        if backportTargets inp.pr.labels = [] then (.error 1, [])
        else
          let targetBranch := inp.chosenBranch
          let s := gitCall inp statusArgs []
          if ¬ (s.1.status = some 0) ∨ ¬ (jsTrim s.1.stdout = "") then (.error 1, s.2)
          else
            let co := gitCall inp (checkoutArgs targetBranch) s.2
            if ¬ (co.1.status = some 0) then (.error 1, co.2)
            else
              let pl := gitCall inp (pullArgs targetBranch) co.2
              if ¬ (pl.1.status = some 0) then (.error 1, pl.2)
              else
                let name := manualBpBranch inp.user_login prNumber targetBranch
                let del := gitCall inp (branchDeleteArgs name) pl.2
                let bb := gitCall inp (checkoutNewArgs name) del.2
                if ¬ (bb.1.status = some 0) then (.error 1, bb.2)
                else
                  let cp := gitCall inp (cherryPickArgs mergeSha) bb.2
                  (.ok (), cp.2)

/-! ### Effect classifiers used by the claims -/

/-- Network fetch or archive extraction. -/
def isFetchEffect (e : Effect) : Bool :=
  match e with
  | .downloadF _ _ => true
  | .unzipF _ _ => true
  | .spawnP c _ => c == tarCmd
  | _ => false

/-- Any subprocess spawn (external query or command). -/
def isSpawnEffect (e : Effect) : Bool :=
  match e with
  | .spawnP _ _ => true
  | .spawnE _ _ _ => true
  | _ => false

/-- A write to the file at `p`. -/
def isWriteTo (p : String) (e : Effect) : Bool :=
  match e with
  | .writeF q _ => q == p
  | _ => false

/-- Number of writes to the file at `p` in a trace. -/
def countWritesTo (p : String) (tr : List Effect) : Nat :=
  (tr.filter (isWriteTo p)).length

/-- Spec-side (claim C9): cache-only mode as the claim words it — the
explicit config flag selects cache-only, or no config is given and
the raw-auth environment variable is absent. -/
def cacheOnlyMode (cfg : Option GomaConfig) (env : SysEnv) : Prop :=
  (∃ c, cfg = some c ∧ c.goma = some ("cache-only")) ∨
    (cfg = none ∧ env.rawGomaAuth = false)

/-! ### Sample inputs used by witnesses and counterexamples -/

def emptyFs : FileSys := ⟨[], []⟩

/-- A filesystem holding a stale recorded checksum and a recorded
login timestamp. -/
def staleFs : FileSys :=
  ⟨[(gomaShaFile, "old"), (gomaLoginFile, "100")], ["third_party", "third_party/goma"]⟩

/-- A Linux host whose download delivers the expected archive but
whose interactive login fails with exit code 1. -/
def linuxEnv : SysEnv :=
  { platform := "linux", isArm := false, forceRedownload := false, rawGomaAuth := false,
    ci := false, now := 100000000, cpus := 4,
    sha256 := fun c =>
      if c = "ARCHIVE" then ("c105c1a4d06761a4bfcae70789e757f409e4fdf4423b50328c5864bf3d639561")
      else ("deadbeef"),
    downloadContent := fun _ => "ARCHIVE",
    gomaAuthInfo := none, gomaLoginStatus := some 1, gomaccStatus := some 0, tarStatus := 0 }

/-- A host on a platform with no checksum-table entry. -/
def unsupportedEnv : SysEnv :=
  { platform := "sunos", isArm := false, forceRedownload := false, rawGomaAuth := false,
    ci := false, now := 0, cpus := 4,
    sha256 := fun _ => "", downloadContent := fun _ => "",
    gomaAuthInfo := none, gomaLoginStatus := some 0, gomaccStatus := some 1, tarStatus := 0 }

/-- A backport run whose working tree is dirty. -/
def dirtyInput : BackportInput :=
  { user_login := "dev", pr := ⟨some ("abc123"), ["needs-manual-bp/30-x-y"]⟩,
    chosenBranch := "30-x-y",
    git := fun args => if args = statusArgs then ⟨some 0, " M file.txt"⟩ else ⟨some 0, ""⟩ }

/-- A backport run where every git call succeeds with clean output. -/
def cleanInput : BackportInput :=
  { user_login := "dev", pr := ⟨some ("abc123"), ["needs-manual-bp/30-x-y"]⟩,
    chosenBranch := "30-x-y",
    git := fun _ => ⟨some 0, ""⟩ }

/-! ### Digit and rendering lemmas (claim C1) -/

theorem chrOfDigit_isDigit : ∀ d : Nat, d < 10 → isDigitChar (chrOfDigit d) = true := by
  decide

theorem digitVal_chrOfDigit : ∀ d : Nat, d < 10 → digitVal (chrOfDigit d) = d := by
  decide

theorem chrOfDigit_ne_zero : ∀ d : Nat, d < 10 → d ≠ 0 → ¬ (chrOfDigit d = '0') := by
  decide

theorem digitVal_lt_ten (c : Char) : digitVal c < 10 := by
  unfold digitVal
  split_ifs <;> omega

theorem isDigitChar_cases {c : Char} (h : isDigitChar c = true) :
    c = '0' ∨ c = '1' ∨ c = '2' ∨ c = '3' ∨ c = '4' ∨
    c = '5' ∨ c = '6' ∨ c = '7' ∨ c = '8' ∨ c = '9' := by
  simp only [isDigitChar, Bool.or_eq_true, beq_iff_eq] at h
  tauto

theorem chrOfDigit_digitVal {c : Char} (h : isDigitChar c = true) :
    chrOfDigit (digitVal c) = c := by
  rcases isDigitChar_cases h with h|h|h|h|h|h|h|h|h|h <;> subst h <;> decide

theorem digit_not_ws {c : Char} (h : isDigitChar c = true) : jsWhitespace c = false := by
  rcases isDigitChar_cases h with h|h|h|h|h|h|h|h|h|h <;> subst h <;> decide

theorem digit_ne_dash {c : Char} (h : isDigitChar c = true) : ¬ (c = '-') := by
  rcases isDigitChar_cases h with h|h|h|h|h|h|h|h|h|h <;> subst h <;> decide

theorem digit_ne_plus {c : Char} (h : isDigitChar c = true) : ¬ (c = '+') := by
  rcases isDigitChar_cases h with h|h|h|h|h|h|h|h|h|h <;> subst h <;> decide

theorem digitVal_pos {c : Char} (h : isDigitChar c = true) (h0 : ¬ (c = '0')) :
    1 ≤ digitVal c := by
  rcases isDigitChar_cases h with h|h|h|h|h|h|h|h|h|h <;> subst h <;> first | decide | exact absurd rfl h0

theorem natToDigitsAux_zero : ∀ f : Nat, natToDigitsAux f 0 = [] := by
  intro f
  cases f <;> simp [natToDigitsAux]

theorem headq_append_left {α : Type} (l l2 : List α) (h : l ≠ []) :
    (l ++ l2).head? = l.head? := by
  cases l <;> simp_all

theorem natToDigitsAux_canon :
    ∀ fuel n : Nat, 1 ≤ n → n ≤ fuel →
      natToDigitsAux fuel n ≠ [] ∧ (natToDigitsAux fuel n).all isDigitChar = true ∧
        ¬ ((natToDigitsAux fuel n).head? = some '0') := by
  intro fuel
  induction fuel with
  | zero => intro n h1 h2; omega
  | succ f ih =>
    intro n h1 _
    have hn : ¬ n = 0 := by omega
    simp only [natToDigitsAux, hn, if_false]
    by_cases h10 : n < 10
    · have hdiv : n / 10 = 0 := Nat.div_eq_of_lt h10
      have hm : n % 10 = n := Nat.mod_eq_of_lt h10
      rw [hdiv, natToDigitsAux_zero, hm]
      refine ⟨by simp, by simp [chrOfDigit_isDigit n h10], ?_⟩
      simp only [List.nil_append, List.head?_cons, Option.some.injEq]
      exact chrOfDigit_ne_zero n h10 hn
    · have h1' : 1 ≤ n / 10 := by
        rw [Nat.one_le_div_iff (by omega)]
        omega
      have h2' : n / 10 ≤ f := by
        have := Nat.div_lt_self (by omega : 0 < n) (by omega : 1 < 10)
        omega
      obtain ⟨hne, hall, hhead⟩ := ih (n / 10) h1' h2'
      refine ⟨by simp, ?_, ?_⟩
      · rw [List.all_append]
        simp [hall, chrOfDigit_isDigit (n % 10) (Nat.mod_lt _ (by omega))]
      · rw [headq_append_left _ _ hne]
        exact hhead

theorem natOfDigits_natToDigitsAux :
    ∀ fuel n : Nat, n ≤ fuel → natOfDigits (natToDigitsAux fuel n) = n := by
  intro fuel
  induction fuel with
  | zero =>
    intro n h
    have : n = 0 := by omega
    subst this
    simp [natToDigitsAux, natOfDigits]
  | succ f ih =>
    intro n h
    by_cases hn : n = 0
    · subst hn; simp [natToDigitsAux, natOfDigits]
    · simp only [natToDigitsAux, hn, if_false]
      have h2 : n / 10 ≤ f := by
        have := Nat.div_lt_self (by omega : 0 < n) (by omega : 1 < 10)
        omega
      have hv := ih (n / 10) h2
      simp only [natOfDigits, List.foldl_append, List.foldl_cons, List.foldl_nil] at hv ⊢
      rw [hv, digitVal_chrOfDigit (n % 10) (Nat.mod_lt _ (by omega))]
      omega

theorem foldl_digits_ge (l : List Char) :
    ∀ acc : Nat, acc ≤ l.foldl (fun a c => a * 10 + digitVal c) acc := by
  induction l with
  | nil => intro acc; simp
  | cons c t ih =>
    intro acc
    simp only [List.foldl_cons]
    calc acc ≤ acc * 10 + digitVal c := by omega
    _ ≤ _ := ih _

theorem natOfDigits_cons_ge (c : Char) (l : List Char) :
    digitVal c ≤ natOfDigits (c :: l) := by
  simpa [natOfDigits] using foldl_digits_ge l (digitVal c)

theorem natOfDigits_pos {c : Char} (l : List Char) (h : isDigitChar c = true)
    (h0 : ¬ (c = '0')) : 1 ≤ natOfDigits (c :: l) :=
  le_trans (digitVal_pos h h0) (natOfDigits_cons_ge c l)

theorem natOfDigits_append_one (t : List Char) (c : Char) :
    natOfDigits (t ++ [c]) = natOfDigits t * 10 + digitVal c := by
  simp [natOfDigits, List.foldl_append]

theorem natToDigitsAux_of_canon :
    ∀ ds : List Char, ds ≠ [] → ds.all isDigitChar = true → ¬ (ds.head? = some '0') →
      ∀ fuel : Nat, natOfDigits ds ≤ fuel → natToDigitsAux fuel (natOfDigits ds) = ds := by
  intro ds
  induction ds using List.reverseRecOn with
  | nil => intro h; exact absurd rfl h
  | append_singleton t c ih =>
    intro _ hall hhead fuel hfuel
    rw [natOfDigits_append_one] at hfuel ⊢
    rw [List.all_append, Bool.and_eq_true] at hall
    have hct : isDigitChar c = true := by
      have := hall.2
      simp only [List.all_cons, List.all_nil, Bool.and_true] at this
      exact this
    by_cases htnil : t = []
    · subst htnil
      have hv0 : natOfDigits ([] : List Char) = 0 := rfl
      rw [hv0] at hfuel ⊢
      simp only [Nat.zero_mul, Nat.zero_add] at hfuel ⊢
      have hc0 : ¬ (c = '0') := by
        simp only [List.nil_append, List.head?_cons, Option.some.injEq] at hhead
        exact hhead
      have hpos : 1 ≤ digitVal c := digitVal_pos hct hc0
      cases fuel with
      | zero => omega
      | succ f =>
        have hne : ¬ digitVal c = 0 := by omega
        simp only [natToDigitsAux, hne, if_false]
        rw [Nat.div_eq_of_lt (digitVal_lt_ten c), Nat.mod_eq_of_lt (digitVal_lt_ten c),
          natToDigitsAux_zero, chrOfDigit_digitVal hct]
    · obtain ⟨d, t2, ht⟩ := List.exists_cons_of_ne_nil htnil
      have hdt : isDigitChar d = true := by
        have h1 := hall.1
        rw [ht] at h1
        simp only [List.all_cons, Bool.and_eq_true] at h1
        exact h1.1
      have hheadt : ¬ (t.head? = some '0') := by
        rw [headq_append_left _ _ htnil] at hhead
        exact hhead
      have hd0 : ¬ (d = '0') := by
        have h2 := hheadt
        rw [ht] at h2
        simp only [List.head?_cons, Option.some.injEq] at h2
        exact h2
      have hvt : 1 ≤ natOfDigits t := by
        rw [ht]
        exact natOfDigits_pos t2 hdt hd0
      have hdc : digitVal c < 10 := digitVal_lt_ten c
      cases fuel with
      | zero => omega
      | succ f =>
        have hne : ¬ (natOfDigits t * 10 + digitVal c = 0) := by omega
        simp only [natToDigitsAux, hne, if_false]
        have hdiv : (natOfDigits t * 10 + digitVal c) / 10 = natOfDigits t := by omega
        have hmod : (natOfDigits t * 10 + digitVal c) % 10 = digitVal c := by omega
        rw [hdiv, hmod, chrOfDigit_digitVal hct,
          ih htnil hall.1 hheadt f (by omega)]

theorem jsNatToString_ne_nil (n : Nat) : jsNatToString n ≠ [] := by
  unfold jsNatToString
  by_cases h : n = 0
  · simp [h]
  · simp only [h, if_false]
    exact (natToDigitsAux_canon n n (by omega) le_rfl).1

theorem jsNatToString_all_digits (n : Nat) : (jsNatToString n).all isDigitChar = true := by
  unfold jsNatToString
  by_cases h : n = 0
  · simp [h]; decide
  · simp only [h, if_false]
    exact (natToDigitsAux_canon n n (by omega) le_rfl).2.1

theorem jsNatToString_head_ne_zero {n : Nat} (h : n ≠ 0) :
    ¬ ((jsNatToString n).head? = some '0') := by
  unfold jsNatToString
  simp only [h, if_false]
  exact (natToDigitsAux_canon n n (by omega) le_rfl).2.2

theorem natOfDigits_jsNatToString (n : Nat) : natOfDigits (jsNatToString n) = n := by
  unfold jsNatToString
  by_cases h : n = 0
  · simp [h]; decide
  · simp only [h, if_false]
    exact natOfDigits_natToDigitsAux n n le_rfl

theorem jsNatToString_ne_zero_list {n : Nat} (h : n ≠ 0) : ¬ (jsNatToString n = ['0']) := by
  intro he
  exact jsNatToString_head_ne_zero h (by rw [he]; rfl)

theorem jsNatToString_of_canon (ds : List Char) (h1 : ds ≠ [])
    (h2 : ds.all isDigitChar = true) (h3 : ds = ['0'] ∨ ¬ (ds.head? = some '0')) :
    jsNatToString (natOfDigits ds) = ds := by
  rcases h3 with h3 | h3
  · subst h3; decide
  · obtain ⟨d, t2, ht⟩ := List.exists_cons_of_ne_nil h1
    have hdt : isDigitChar d = true := by
      rw [ht] at h2
      simp only [List.all_cons, Bool.and_eq_true] at h2
      exact h2.1
    have hd0 : ¬ (d = '0') := by
      rw [ht] at h3
      simp only [List.head?_cons, Option.some.injEq] at h3
      exact h3
    have hpos : 1 ≤ natOfDigits ds := by
      rw [ht]
      exact natOfDigits_pos t2 hdt hd0
    unfold jsNatToString
    simp only [show ¬ natOfDigits ds = 0 by omega, if_false]
    exact natToDigitsAux_of_canon ds h1 h2 h3 (natOfDigits ds) le_rfl

theorem isCanonNatB_iff (l : List Char) :
    isCanonNatB l = true ↔
      l ≠ [] ∧ l.all isDigitChar = true ∧ (l = ['0'] ∨ ¬ (l.head? = some '0')) := by
  unfold isCanonNatB
  cases l with
  | nil => simp
  | cons c t =>
    simp only [List.isEmpty_cons, Bool.not_false, Bool.true_and, Bool.and_eq_true,
      Bool.or_eq_true, Bool.not_eq_true', beq_eq_false_iff_ne, ne_eq, beq_iff_eq,
      List.head?_cons]
    constructor
    · rintro ⟨hall, hor⟩
      refine ⟨by simp, hall, ?_⟩
      rcases hor with h | h
      · exact Or.inl h
      · exact Or.inr (by simpa using h)
    · rintro ⟨-, hall, hor⟩
      refine ⟨hall, ?_⟩
      rcases hor with h | h
      · exact Or.inl h
      · exact Or.inr (by simpa using h)

theorem takeWhile_of_all {p : Char → Bool} :
    ∀ l : List Char, l.all p = true → l.takeWhile p = l := by
  intro l h
  induction l with
  | nil => rfl
  | cons a t ih =>
    simp only [List.all_cons, Bool.and_eq_true] at h
    simp [List.takeWhile_cons, h.1, ih h.2]

theorem string_mk_data (s : String) : String.mk s.data = s := rfl

theorem parseDigits_of_all {l : List Char} (h : l.all isDigitChar = true) (hne : l ≠ []) :
    parseDigits l = some (natOfDigits l) := by
  unfold parseDigits
  rw [takeWhile_of_all l h, if_neg hne]

theorem jsParseInt_cons {s : List Char} {c : Char} {rest : List Char}
    (h : s.dropWhile jsWhitespace = c :: rest) :
    jsParseInt s = jsParseIntCore c rest := by
  unfold jsParseInt
  rw [h]

theorem jsParseIntCore_dash {t : List Char} (h : t.all isDigitChar = true) (hne : t ≠ []) :
    jsParseIntCore '-' t = some (-(natOfDigits t : Int)) := by
  unfold jsParseIntCore
  rw [if_pos rfl, parseDigits_of_all h hne]

theorem jsParseIntCore_digit {c : Char} {t : List Char} (hc : isDigitChar c = true)
    (h : (c :: t).all isDigitChar = true) :
    jsParseIntCore c t = some ((natOfDigits (c :: t) : Int)) := by
  unfold jsParseIntCore
  rw [if_neg (digit_ne_dash hc), if_neg (digit_ne_plus hc),
    parseDigits_of_all h (by simp)]

theorem validate_imp_canon {s : String} (h : validateBackportNumber s = true) :
    isCanonIntString s = true := by
  unfold validateBackportNumber at h
  cases hp : jsParseInt s.data with
  | none => rw [hp] at h; exact absurd h (by simp)
  | some n =>
    rw [hp] at h
    have heq : jsIntToString n = s := by simpa using h
    by_cases hneg : n < 0
    · have hm : n.natAbs ≠ 0 := by omega
      have hdata : s.data = '-' :: jsNatToString n.natAbs := by
        rw [← heq]
        unfold jsIntToString
        rw [if_pos hneg]
      unfold isCanonIntString
      rw [hdata]
      show (if ('-' : Char) = '-' then
        isCanonNatB (jsNatToString n.natAbs) && !(jsNatToString n.natAbs == ['0'])
        else isCanonNatB ('-' :: jsNatToString n.natAbs)) = true
      rw [if_pos rfl, Bool.and_eq_true]
      constructor
      · rw [isCanonNatB_iff]
        exact ⟨jsNatToString_ne_nil _, jsNatToString_all_digits _,
          Or.inr (jsNatToString_head_ne_zero hm)⟩
      · simp only [Bool.not_eq_true', beq_eq_false_iff_ne, ne_eq]
        exact jsNatToString_ne_zero_list hm
    · have hdata : s.data = jsNatToString n.natAbs := by
        rw [← heq]
        unfold jsIntToString
        rw [if_neg hneg]
      obtain ⟨d, t2, hcons⟩ := List.exists_cons_of_ne_nil (jsNatToString_ne_nil n.natAbs)
      have hdt : isDigitChar d = true := by
        have := jsNatToString_all_digits n.natAbs
        rw [hcons] at this
        simp only [List.all_cons, Bool.and_eq_true] at this
        exact this.1
      unfold isCanonIntString
      rw [hdata, hcons]
      show (if d = '-' then isCanonNatB t2 && !(t2 == ['0'])
        else isCanonNatB (d :: t2)) = true
      rw [if_neg (digit_ne_dash hdt), ← hcons, isCanonNatB_iff]
      refine ⟨jsNatToString_ne_nil _, jsNatToString_all_digits _, ?_⟩
      by_cases hm : n.natAbs = 0
      · exact Or.inl (by rw [hm]; rfl)
      · exact Or.inr (jsNatToString_head_ne_zero hm)

theorem canon_imp_validate {s : String} (h : isCanonIntString s = true) :
    validateBackportNumber s = true := by
  unfold isCanonIntString at h
  cases hd : s.data with
  | nil => rw [hd] at h; exact absurd h (by decide)
  | cons c t =>
    rw [hd] at h
    by_cases hc : c = '-'
    · subst hc
      have h' : (isCanonNatB t && !(t == ['0'])) = true := h
      rw [Bool.and_eq_true] at h'
      obtain ⟨hcanon, ht0⟩ := h'
      rw [isCanonNatB_iff] at hcanon
      obtain ⟨htne, hall, hdisj⟩ := hcanon
      have ht0' : ¬ (t = ['0']) := by simpa using ht0
      have hhead : ¬ (t.head? = some '0') := by
        rcases hdisj with h1 | h1
        · exact absurd h1 ht0'
        · exact h1
      obtain ⟨d, t2, hcons⟩ := List.exists_cons_of_ne_nil htne
      have hdt : isDigitChar d = true := by
        rw [hcons] at hall
        simp only [List.all_cons, Bool.and_eq_true] at hall
        exact hall.1
      have hd0 : ¬ (d = '0') := by
        rw [hcons] at hhead
        simpa using hhead
      have hdrop : s.data.dropWhile jsWhitespace = '-' :: t := by
        rw [hd]
        simp [List.dropWhile_cons, show jsWhitespace '-' = false by decide]
      have hparse : jsParseInt s.data = some (-(natOfDigits t : Int)) := by
        rw [jsParseInt_cons hdrop, jsParseIntCore_dash hall htne]
      have hpos : 1 ≤ natOfDigits t := by
        rw [hcons]
        exact natOfDigits_pos t2 hdt hd0
      unfold validateBackportNumber
      rw [hparse]
      show (jsIntToString (-(natOfDigits t : Int)) == s) = true
      rw [beq_iff_eq]
      unfold jsIntToString
      rw [if_pos (by omega : -(natOfDigits t : Int) < 0)]
      have habs : (-(natOfDigits t : Int)).natAbs = natOfDigits t := by simp
      rw [habs, jsNatToString_of_canon t htne hall (Or.inr hhead), ← hd]
    · have h' : isCanonNatB (c :: t) = true := by
        have hstep : (if c = '-' then isCanonNatB t && !(t == ['0'])
            else isCanonNatB (c :: t)) = true := h
        rwa [if_neg hc] at hstep
      rw [isCanonNatB_iff] at h'
      obtain ⟨-, hall, hdisj⟩ := h'
      have hct : isDigitChar c = true := by
        simp only [List.all_cons, Bool.and_eq_true] at hall
        exact hall.1
      have hdrop : s.data.dropWhile jsWhitespace = c :: t := by
        rw [hd]
        simp [List.dropWhile_cons, digit_not_ws hct]
      have hparse : jsParseInt s.data = some ((natOfDigits (c :: t) : Int)) := by
        rw [jsParseInt_cons hdrop, jsParseIntCore_digit hct hall]
      unfold validateBackportNumber
      rw [hparse]
      show (jsIntToString ((natOfDigits (c :: t) : Int)) == s) = true
      rw [beq_iff_eq]
      unfold jsIntToString
      rw [if_neg (by omega : ¬ ((natOfDigits (c :: t) : Int) < 0))]
      have habs : ((natOfDigits (c :: t) : Int)).natAbs = natOfDigits (c :: t) := by simp
      rw [habs, jsNatToString_of_canon (c :: t) (by simp) hall hdisj, ← hd]

/-- C1 (counterexample): the PR-number validator as implemented also
accepts canonical negative integers — `-5` parses and round-trips
exactly, so it is accepted, yet it is not the decimal representation
of a non-negative integer as the claim requires. -/
theorem c1_validator_counterexample :
    validateBackportNumber ("-5") = true ∧ isNonNegDecimal ("-5") = false := by
  exact ⟨by decide, by decide⟩

/-- C1 (amended): the PR-number validator accepts a string exactly
when it is the canonical decimal representation of an integer — a
digit string with no leading zeros (other than `0` itself), possibly
preceded by `-` for a negative value; in particular `42` is accepted
while `042`, `4a`, `12abc` and the empty string are rejected. -/
theorem c1_validator_amended (s : String) :
    validateBackportNumber s = isCanonIntString s := by
  cases hv : validateBackportNumber s with
  | true => rw [validate_imp_canon hv]
  | false =>
    cases hc : isCanonIntString s with
    | false => rfl
    | true => rw [← hv, canon_imp_validate hc]

/-! ### Filesystem lemmas -/

theorem lookupFile_filter_keep (f : String × String → Bool) (q : String)
    (h : ∀ c, f (q, c) = true) :
    ∀ l : List (String × String), lookupFile (l.filter f) q = lookupFile l q := by
  intro l
  induction l with
  | nil => rfl
  | cons kv rest ih =>
    rw [List.filter_cons]
    by_cases hk : kv.1 = q
    · have hfkv : f kv = true := by
        have hkv : kv = (q, kv.2) := by rw [← hk]
        rw [hkv]
        exact h kv.2
      rw [if_pos hfkv]
      simp only [lookupFile, if_pos hk]
    · cases hf : f kv with
      | true =>
        rw [if_pos rfl]
        simp only [lookupFile, if_neg hk]
        exact ih
      | false =>
        rw [if_neg (by simp)]
        simp only [lookupFile, if_neg hk]
        exact ih

theorem lookupFile_filter_drop (f : String × String → Bool) (q : String)
    (h : ∀ c, f (q, c) = false) :
    ∀ l : List (String × String), lookupFile (l.filter f) q = none := by
  intro l
  induction l with
  | nil => rfl
  | cons kv rest ih =>
    rw [List.filter_cons]
    by_cases hk : kv.1 = q
    · have hfkv : f kv = false := by
        have hkv : kv = (q, kv.2) := by rw [← hk]
        rw [hkv]
        exact h kv.2
      rw [if_neg (by simp [hfkv])]
      exact ih
    · cases hf : f kv with
      | true =>
        rw [if_pos rfl]
        simp only [lookupFile, if_neg hk]
        exact ih
      | false =>
        rw [if_neg (by simp)]
        exact ih

theorem lookup_fsWrite_self (fs : FileSys) (p c : String) :
    lookupFile (fsWrite fs p c).files p = some c := by
  simp [fsWrite, lookupFile]

theorem lookup_fsWrite_ne (fs : FileSys) (p c q : String) (h : ¬ (q = p)) :
    lookupFile (fsWrite fs p c).files q = lookupFile fs.files q := by
  unfold fsWrite
  simp only
  rw [lookupFile, if_neg (fun he => h (Eq.symm he))]
  exact lookupFile_filter_keep _ q (fun c2 => by simp [h]) fs.files

theorem lookup_fsDeleteTree_self (fs : FileSys) (p : String) :
    lookupFile (fsDeleteTree fs p).files p = none := by
  unfold fsDeleteTree
  simp only
  exact lookupFile_filter_drop _ p (fun c => by simp) fs.files

theorem lookup_fsDeleteTree_ne (fs : FileSys) (p q : String)
    (h1 : ¬ (q = p)) (h2 : underDir p q = false) :
    lookupFile (fsDeleteTree fs p).files q = lookupFile fs.files q := by
  unfold fsDeleteTree
  simp only
  exact lookupFile_filter_keep _ q (fun c => by simp [h1, h2]) fs.files

theorem lookup_fsMkdir (fs : FileSys) (p q : String) :
    lookupFile (fsMkdir fs p).files q = lookupFile fs.files q := rfl

theorem fsExists_of_lookup {fs : FileSys} {p c : String}
    (h : lookupFile fs.files p = some c) : fsExists fs p = true := by
  simp [fsExists, h]

/-! ### Trace lemmas for the provisioner components -/

theorem countWritesTo_append (p : String) (a b : List Effect) :
    countWritesTo p (a ++ b) = countWritesTo p a + countWritesTo p b := by
  simp [countWritesTo, List.filter_append]

theorem ensureThirdParty_files (st : WState) :
    (ensureThirdParty st).fs.files = st.fs.files := by
  by_cases h : fsExists st.fs ("third_party") = true <;>
    simp [ensureThirdParty, stExists, stMkdir, emit, fsMkdir, h]

theorem ensureThirdParty_dirs_ne (st : WState) (d : String)
    (h : ¬ (d = "third_party")) :
    (ensureThirdParty st).fs.dirs.contains d = st.fs.dirs.contains d := by
  by_cases he : fsExists st.fs ("third_party") = true <;>
    simp [ensureThirdParty, stExists, stMkdir, emit, fsMkdir, he, h]

theorem ensureThirdParty_fsExists_ne (st : WState) (q : String)
    (h : ¬ (q = "third_party")) :
    fsExists (ensureThirdParty st).fs q = fsExists st.fs q := by
  unfold fsExists
  rw [ensureThirdParty_files, ensureThirdParty_dirs_ne st q h]

theorem ensureThirdParty_filter (st : WState) (f : Effect → Bool)
    (h1 : ∀ p, f (.existsF p) = false) (h2 : ∀ p, f (.mkdirF p) = false) :
    (ensureThirdParty st).trace.filter f = st.trace.filter f := by
  by_cases h : fsExists st.fs ("third_party") = true <;>
    simp [ensureThirdParty, stExists, stMkdir, emit, List.filter_append, h, h1, h2]

theorem gomaGnSync_files_ne (st : WState) (q : String) (h : ¬ (q = gomaGnFile)) :
    lookupFile (gomaGnSync st).fs.files q = lookupFile st.fs.files q := by
  rw [← ensureThirdParty_files st]
  by_cases hE : fsExists (ensureThirdParty st).fs gomaGnFile = true <;>
  by_cases hC : (lookupFile (ensureThirdParty st).fs.files gomaGnFile).getD ("") = gomaGnContents <;>
    simp [gomaGnSync, stExists, stRead, stWrite, emit, hE, hC,
      lookup_fsWrite_ne _ _ _ _ h]

theorem gomaGnSync_dirs_ne (st : WState) (d : String)
    (h : ¬ (d = "third_party")) :
    (gomaGnSync st).fs.dirs.contains d = st.fs.dirs.contains d := by
  rw [← ensureThirdParty_dirs_ne st d h]
  by_cases hE : fsExists (ensureThirdParty st).fs gomaGnFile = true <;>
  by_cases hC : (lookupFile (ensureThirdParty st).fs.files gomaGnFile).getD ("") = gomaGnContents <;>
    simp [gomaGnSync, stExists, stRead, stWrite, emit, fsWrite, hE, hC]

theorem gomaGnSync_filter (st : WState) (f : Effect → Bool)
    (h1 : ∀ p, f (.existsF p) = false) (h2 : ∀ p, f (.mkdirF p) = false)
    (h3 : ∀ p, f (.readF p) = false) (h4 : ∀ c, f (.writeF gomaGnFile c) = false) :
    (gomaGnSync st).trace.filter f = st.trace.filter f := by
  have he := ensureThirdParty_filter st f h1 h2
  by_cases hE : fsExists (ensureThirdParty st).fs gomaGnFile = true <;>
  by_cases hC : (lookupFile (ensureThirdParty st).fs.files gomaGnFile).getD ("") = gomaGnContents <;>
    simp [gomaGnSync, stExists, stRead, stWrite, emit, List.filter_append,
      hE, hC, h1, h3, h4, he]

theorem gomaGnSync_countWrites_gn (st : WState) :
    countWritesTo gomaGnFile (gomaGnSync st).trace =
      countWritesTo gomaGnFile st.trace +
        (if lookupFile st.fs.files gomaGnFile = some gomaGnContents then 0 else 1) := by
  have hetp : (ensureThirdParty st).trace.filter (isWriteTo gomaGnFile) =
      st.trace.filter (isWriteTo gomaGnFile) :=
    ensureThirdParty_filter st _ (fun p => rfl) (fun p => rfl)
  rw [← ensureThirdParty_files st]
  cases hL : lookupFile (ensureThirdParty st).fs.files gomaGnFile with
  | some x =>
    have hE : fsExists (ensureThirdParty st).fs gomaGnFile = true := fsExists_of_lookup hL
    by_cases hx : x = gomaGnContents
    · subst hx
      simp [gomaGnSync, stExists, stRead, stWrite, emit, hE, hL, countWritesTo,
        List.filter_append, hetp, isWriteTo]
    · simp [gomaGnSync, stExists, stRead, stWrite, emit, hE, hL, hx, countWritesTo,
        List.filter_append, hetp, isWriteTo]
  | none =>
    have hne : ¬ (("" : String) = gomaGnContents) := by decide
    by_cases hD : (ensureThirdParty st).fs.dirs.contains gomaGnFile = true
    · have hE : fsExists (ensureThirdParty st).fs gomaGnFile = true := by
        simp only [fsExists, hL, Option.isSome_none, Bool.false_or]
        exact hD
      simp [gomaGnSync, stExists, stRead, stWrite, emit, hE, hL, hne, countWritesTo,
        List.filter_append, hetp, isWriteTo]
    · have hE : fsExists (ensureThirdParty st).fs gomaGnFile = false := by
        simp only [fsExists, hL, Option.isSome_none, Bool.false_or]
        simpa using hD
      simp [gomaGnSync, stExists, stRead, stWrite, emit, hE, hL, countWritesTo,
        List.filter_append, hetp, isWriteTo]

theorem shaUpToDate_fs (sha : String) (st : WState) :
    (shaUpToDate sha st).2.fs = st.fs := by
  by_cases h : fsExists st.fs gomaShaFile = true <;>
    simp [shaUpToDate, stExists, stRead, emit, h]

theorem shaUpToDate_filter (sha : String) (st : WState) (f : Effect → Bool)
    (h1 : ∀ p, f (.existsF p) = false) (h2 : ∀ p, f (.readF p) = false) :
    (shaUpToDate sha st).2.trace.filter f = st.trace.filter f := by
  by_cases h : fsExists st.fs gomaShaFile = true <;>
    simp [shaUpToDate, stExists, stRead, emit, List.filter_append, h, h1, h2]

theorem shaUpToDate_true_of {sha : String} {st : WState}
    (h : lookupFile st.fs.files gomaShaFile = some sha) :
    (shaUpToDate sha st).1 = true := by
  have hE := fsExists_of_lookup h
  simp [shaUpToDate, stExists, stRead, emit, hE, h]

theorem shaUpToDate_false_of {sha : String} {st : WState}
    (h1 : ¬ (lookupFile st.fs.files gomaShaFile = some sha))
    (h2 : st.fs.dirs.contains gomaShaFile = false) :
    (shaUpToDate sha st).1 = false := by
  cases hL : lookupFile st.fs.files gomaShaFile with
  | none =>
    have hE : fsExists st.fs gomaShaFile = false := by
      simp only [fsExists, hL, Option.isSome_none, Bool.false_or]
      exact h2
    simp [shaUpToDate, stExists, stRead, emit, hE]
  | some x =>
    have hx : ¬ (x = sha) := fun he => h1 (by rw [hL, he])
    have hE : fsExists st.fs gomaShaFile = true := fsExists_of_lookup hL
    simp [shaUpToDate, stExists, stRead, emit, hE, hL, hx]

theorem performDownload_download_mem (env : SysEnv) (sha : String) (st : WState) :
    Effect.downloadF (downloadURL sha (gomaFilenameOf env))
        (tmpDownloadPath (gomaFilenameOf env)) ∈ (performDownload env sha st).2.trace := by
  by_cases h1 : fsExists st.fs (gomaDir ++ "/goma_ctl.py") = true <;>
  by_cases h2 : env.sha256 (env.downloadContent (downloadURL sha (gomaFilenameOf env))) = sha <;>
  by_cases h3 : jsEndsWith (gomaFilenameOf env) (".tgz") = true <;>
  by_cases h4 : env.tarStatus = 0 <;>
    simp [performDownload, stExists, stSpawn, stDeleteTree, stDownload, stRead, stWrite,
      stUnzip, emit, lookup_fsWrite_self, h1, h2, h3, h4, List.mem_append]

theorem performDownload_mismatch (env : SysEnv) (sha : String) (st : WState)
    (h : ¬ (env.sha256 (env.downloadContent (downloadURL sha (gomaFilenameOf env))) = sha)) :
    (performDownload env sha st).1 = .error 1 ∧
      lookupFile (performDownload env sha st).2.fs.files
        (tmpDownloadPath (gomaFilenameOf env)) = none := by
  by_cases h1 : fsExists st.fs (gomaDir ++ "/goma_ctl.py") = true <;>
    simp [performDownload, stExists, stSpawn, stDeleteTree, stDownload, stRead, emit,
      lookup_fsWrite_self, h1, h, lookup_fsDeleteTree_self]

theorem performDownload_filter (env : SysEnv) (sha : String) (st : WState) (f : Effect → Bool)
    (hex : ∀ p, f (.existsF p) = false)
    (hrd : ∀ p, f (.readF p) = false)
    (hdel : ∀ p, f (.deleteF p) = false)
    (hsp1 : f (.spawnP pythonCmd stopArgs) = false)
    (hsp2 : f (.spawnP tarCmd (["zxvf", gomaFilenameOf env])) = false)
    (hdl : ∀ u d, f (.downloadF u d) = false)
    (huz : ∀ s d, f (.unzipF s d) = false)
    (hwr : f (.writeF gomaShaFile sha) = false) :
    (performDownload env sha st).2.trace.filter f = st.trace.filter f := by
  by_cases h1 : fsExists st.fs (gomaDir ++ "/goma_ctl.py") = true <;>
  by_cases h2 : env.sha256 (env.downloadContent (downloadURL sha (gomaFilenameOf env))) = sha <;>
  by_cases h3 : jsEndsWith (gomaFilenameOf env) (".tgz") = true <;>
  by_cases h4 : env.tarStatus = 0 <;>
    simp [performDownload, stExists, stSpawn, stDeleteTree, stDownload, stRead, stWrite,
      stUnzip, emit, lookup_fsWrite_self, List.filter_append,
      h1, h2, h3, h4, hex, hrd, hdel, hsp1, hsp2, hdl, huz, hwr]

theorem downloadAndPrepareGoma_eq (env : SysEnv) (cfg : Option GomaConfig) (st : WState)
    (hsup : isSupportedPlatform env = true) :
    downloadAndPrepareGoma env cfg st =
      (if (shaUpToDate (expectedSha env cfg) (gomaGnSync st)).1 && !env.forceRedownload then
        (.ok (some (expectedSha env cfg)),
          (shaUpToDate (expectedSha env cfg) (gomaGnSync st)).2)
      else
        performDownload env (expectedSha env cfg)
          (shaUpToDate (expectedSha env cfg) (gomaGnSync st)).2) := by
  simp [downloadAndPrepareGoma, hsup]

theorem getLastKnownLoginTime_val_some {st : WState} {c : String}
    (h : lookupFile st.fs.files gomaLoginFile = some c) :
    (getLastKnownLoginTime st).1 = some (jsParseInt c.data) := by
  simp [getLastKnownLoginTime, stExists, stRead, emit, fsExists_of_lookup h, h]

theorem getLastKnownLoginTime_val_none {st : WState}
    (h1 : lookupFile st.fs.files gomaLoginFile = none)
    (h2 : st.fs.dirs.contains gomaLoginFile = false) :
    (getLastKnownLoginTime st).1 = none := by
  have hE : fsExists st.fs gomaLoginFile = false := by
    simp only [fsExists, h1, Option.isSome_none, Bool.false_or]
    exact h2
  simp [getLastKnownLoginTime, stExists, stRead, emit, hE]

theorem getLastKnownLoginTime_filter (st : WState) (f : Effect → Bool)
    (h1 : ∀ p, f (.existsF p) = false) (h2 : ∀ p, f (.readF p) = false) :
    (getLastKnownLoginTime st).2.trace.filter f = st.trace.filter f := by
  by_cases h : fsExists st.fs gomaLoginFile = true <;>
    simp [getLastKnownLoginTime, stExists, stRead, emit, List.filter_append, h, h1, h2]

theorem gomaIsAuthenticated_eq (env : SysEnv) (cfg : Option GomaConfig) (st : WState)
    (hsup : isSupportedPlatform env = true) :
    gomaIsAuthenticated env cfg st =
      (if (match (getLastKnownLoginTime st).1 with
          | some (some t) => decide (env.now - t < freshnessWindowMs)
          | _ => false) then
        (true, (getLastKnownLoginTime st).2)
      else
        match env.gomaAuthInfo with
        | none => (false, stSpawn pythonCmd infoArgs (getLastKnownLoginTime st).2)
        | some out =>
          (loggedInPatternTest (jsTrim out),
            stSpawn pythonCmd infoArgs (getLastKnownLoginTime st).2)) := by
  simp [gomaIsAuthenticated, hsup]

/-- C2 (counterexample): on an unsupported platform `ensureGomaStart`
is not guarded — it still spawns the gomacc control-port probe and,
when that fails, invokes the client's start routine; its effect trace
is non-empty, refuting "every provisioning operation is a no-op
without touching the filesystem or the network". -/
theorem c2_unsupported_counterexample :
    isSupportedPlatform unsupportedEnv = false ∧
      (ensureGomaStart unsupportedEnv none (initSt emptyFs)).trace =
        [Effect.spawnP ("third_party/goma/gomacc") (["port", "2"]),
         Effect.spawnE pythonCmd ensureStartArgs
           [("GOMA_FALLBACK_ON_AUTH_FAILURE", "true")]] := by
  exact ⟨rfl, rfl⟩

/-- C2 (amended): on an unsupported platform the three guarded
provisioning operations — `downloadAndPrepareGoma`,
`gomaIsAuthenticated` and `authenticateGoma` — return their no-op
results (`undefined`, `false`, `undefined`) with the state, trace and
filesystem untouched; `ensureGomaStart` carries no such guard and
still probes and starts the client. -/
theorem c2_unsupported_amended (env : SysEnv) (cfg : Option GomaConfig) (st : WState)
    (h : isSupportedPlatform env = false) :
    downloadAndPrepareGoma env cfg st = (.ok none, st) ∧
      gomaIsAuthenticated env cfg st = (false, st) ∧
      authenticateGoma env cfg st = (.ok (), st) := by
  refine ⟨?_, ?_, ?_⟩ <;>
    simp [downloadAndPrepareGoma, gomaIsAuthenticated, authenticateGoma, h]

/-- Witness for C2 (amended) at a concrete unsupported host. -/
theorem c2_unsupported_amended_witness :
    isSupportedPlatform unsupportedEnv = false ∧
      (downloadAndPrepareGoma unsupportedEnv none (initSt emptyFs) = (.ok none, initSt emptyFs) ∧
        gomaIsAuthenticated unsupportedEnv none (initSt emptyFs) = (false, initSt emptyFs) ∧
        authenticateGoma unsupportedEnv none (initSt emptyFs) = (.ok (), initSt emptyFs)) :=
  ⟨rfl, c2_unsupported_amended unsupportedEnv none (initSt emptyFs) rfl⟩

/-- C3: in `downloadAndPrepareGoma`, (i) when the recorded checksum
file holds exactly the expected checksum for the resolved platform
and source and the force-redownload flag is unset, the run performs
no download and no extraction; (ii) when the recorded checksum
differs (or is absent), a download is attempted, and if the SHA-256
of the downloaded body differs from the expected checksum the run
exits with code 1 and the temporary download file no longer exists. -/
theorem c3_checksum_gating (env : SysEnv) (cfg : Option GomaConfig) (fs : FileSys)
    (hsup : isSupportedPlatform env = true)
    (hdirs : fs.dirs.contains gomaShaFile = false) :
    ((lookupFile fs.files gomaShaFile = some (expectedSha env cfg) ∧
        env.forceRedownload = false →
      (downloadAndPrepareGoma env cfg (initSt fs)).2.trace.filter isFetchEffect = []) ∧
     (¬ (lookupFile fs.files gomaShaFile = some (expectedSha env cfg)) →
      Effect.downloadF (downloadURL (expectedSha env cfg) (gomaFilenameOf env))
          (tmpDownloadPath (gomaFilenameOf env)) ∈
        (downloadAndPrepareGoma env cfg (initSt fs)).2.trace ∧
      (¬ (env.sha256 (env.downloadContent (downloadURL (expectedSha env cfg)
            (gomaFilenameOf env))) = expectedSha env cfg) →
        (downloadAndPrepareGoma env cfg (initSt fs)).1 = .error 1 ∧
          lookupFile (downloadAndPrepareGoma env cfg (initSt fs)).2.fs.files
            (tmpDownloadPath (gomaFilenameOf env)) = none))) := by
  have hL1 : lookupFile (gomaGnSync (initSt fs)).fs.files gomaShaFile =
      lookupFile fs.files gomaShaFile := gomaGnSync_files_ne _ _ (by decide)
  have hD1 : (gomaGnSync (initSt fs)).fs.dirs.contains gomaShaFile =
      fs.dirs.contains gomaShaFile := gomaGnSync_dirs_ne _ _ (by decide)
  rw [downloadAndPrepareGoma_eq env cfg (initSt fs) hsup]
  constructor
  · rintro ⟨hrec, hforce⟩
    have hu : (shaUpToDate (expectedSha env cfg) (gomaGnSync (initSt fs))).1 = true :=
      shaUpToDate_true_of (by rw [hL1]; exact hrec)
    rw [hu, hforce]
    simp only [Bool.not_false, Bool.and_true, if_true]
    rw [shaUpToDate_filter _ _ _ (fun p => rfl) (fun p => rfl),
      gomaGnSync_filter _ _ (fun p => rfl) (fun p => rfl) (fun p => rfl) (fun c => rfl)]
    rfl
  · intro hrec
    have hu : (shaUpToDate (expectedSha env cfg) (gomaGnSync (initSt fs))).1 = false :=
      shaUpToDate_false_of (by rw [hL1]; exact hrec) (by rw [hD1]; exact hdirs)
    rw [hu]
    simp only [Bool.false_and, Bool.false_eq_true, if_false]
    exact ⟨performDownload_download_mem env _ _,
      fun hmis => performDownload_mismatch env _ _ hmis⟩

/-- Witness for C3 at a concrete Linux host. -/
theorem c3_checksum_gating_witness :
    isSupportedPlatform linuxEnv = true ∧ emptyFs.dirs.contains gomaShaFile = false ∧
      ((lookupFile emptyFs.files gomaShaFile = some (expectedSha linuxEnv none) ∧
          linuxEnv.forceRedownload = false →
        (downloadAndPrepareGoma linuxEnv none (initSt emptyFs)).2.trace.filter isFetchEffect = []) ∧
       (¬ (lookupFile emptyFs.files gomaShaFile = some (expectedSha linuxEnv none)) →
        Effect.downloadF (downloadURL (expectedSha linuxEnv none) (gomaFilenameOf linuxEnv))
            (tmpDownloadPath (gomaFilenameOf linuxEnv)) ∈
          (downloadAndPrepareGoma linuxEnv none (initSt emptyFs)).2.trace ∧
        (¬ (linuxEnv.sha256 (linuxEnv.downloadContent (downloadURL (expectedSha linuxEnv none)
              (gomaFilenameOf linuxEnv))) = expectedSha linuxEnv none) →
          (downloadAndPrepareGoma linuxEnv none (initSt emptyFs)).1 = .error 1 ∧
            lookupFile (downloadAndPrepareGoma linuxEnv none (initSt emptyFs)).2.fs.files
              (tmpDownloadPath (gomaFilenameOf linuxEnv)) = none))) :=
  ⟨rfl, rfl, c3_checksum_gating linuxEnv none emptyFs rfl rfl⟩

/-- C4: `gomaIsAuthenticated` returns `true` and invokes no external
process when the recorded login timestamp is within 12 hours of now;
an absent timestamp file, or a recorded timestamp at least 12 hours
old, makes it invoke the fallback `goma_auth.py info` status query. -/
theorem c4_login_freshness (env : SysEnv) (cfg : Option GomaConfig) (fs : FileSys)
    (hsup : isSupportedPlatform env = true) :
    (∀ c t, lookupFile fs.files gomaLoginFile = some c →
      jsParseInt c.data = some t → env.now - t < freshnessWindowMs →
      (gomaIsAuthenticated env cfg (initSt fs)).1 = true ∧
        (gomaIsAuthenticated env cfg (initSt fs)).2.trace.filter isSpawnEffect = []) ∧
    ((lookupFile fs.files gomaLoginFile = none ∧ fs.dirs.contains gomaLoginFile = false) ∨
      (∃ c t, lookupFile fs.files gomaLoginFile = some c ∧ jsParseInt c.data = some t ∧
        freshnessWindowMs ≤ env.now - t) →
      Effect.spawnP pythonCmd infoArgs ∈ (gomaIsAuthenticated env cfg (initSt fs)).2.trace) := by
  rw [gomaIsAuthenticated_eq env cfg (initSt fs) hsup]
  constructor
  · intro c t hc ht hfresh
    rw [getLastKnownLoginTime_val_some hc, ht]
    have hcond : decide (env.now - t < freshnessWindowMs) = true := decide_eq_true hfresh
    simp only [hcond, if_true]
    refine ⟨by trivial, ?_⟩
    rw [getLastKnownLoginTime_filter _ isSpawnEffect (fun p => rfl) (fun p => rfl)]
    rfl
  · intro hstale
    rcases hstale with ⟨h1, h2⟩ | ⟨c, t, hc, ht, hstale⟩
    · rw [getLastKnownLoginTime_val_none h1 h2]
      simp only [if_false]
      cases env.gomaAuthInfo <;>
        simp [stSpawn, emit, List.mem_append]
    · rw [getLastKnownLoginTime_val_some hc, ht]
      have hcond : decide (env.now - t < freshnessWindowMs) = false :=
        decide_eq_false (by omega)
      simp only [hcond, Bool.false_eq_true, if_false]
      cases env.gomaAuthInfo <;>
        simp [stSpawn, emit, List.mem_append]

/-- Witness for C4 at a concrete host: a fresh timestamp yields
`true` with no spawn, and the stale recorded time `100` (now minus
more than 12 hours) triggers the fallback query. -/
theorem c4_login_freshness_witness :
    isSupportedPlatform linuxEnv = true ∧
      ((∀ c t, lookupFile staleFs.files gomaLoginFile = some c →
        jsParseInt c.data = some t → linuxEnv.now - t < freshnessWindowMs →
        (gomaIsAuthenticated linuxEnv none (initSt staleFs)).1 = true ∧
          (gomaIsAuthenticated linuxEnv none (initSt staleFs)).2.trace.filter isSpawnEffect = []) ∧
      ((lookupFile staleFs.files gomaLoginFile = none ∧
          staleFs.dirs.contains gomaLoginFile = false) ∨
        (∃ c t, lookupFile staleFs.files gomaLoginFile = some c ∧ jsParseInt c.data = some t ∧
          freshnessWindowMs ≤ linuxEnv.now - t) →
        Effect.spawnP pythonCmd infoArgs ∈
          (gomaIsAuthenticated linuxEnv none (initSt staleFs)).2.trace)) :=
  ⟨rfl, c4_login_freshness linuxEnv none staleFs rfl⟩

/-- C5: with no fresh recorded login, a failure of the fallback
status query (`execFileSync` throwing, e.g. the client not being
installed) makes `gomaIsAuthenticated` return `false` rather than
propagate the failure. -/
theorem c5_fallback_failure (env : SysEnv) (cfg : Option GomaConfig) (fs : FileSys)
    (hsup : isSupportedPlatform env = true) (hinfo : env.gomaAuthInfo = none)
    (hstale : (lookupFile fs.files gomaLoginFile = none ∧
        fs.dirs.contains gomaLoginFile = false) ∨
      (∃ c t, lookupFile fs.files gomaLoginFile = some c ∧ jsParseInt c.data = some t ∧
        freshnessWindowMs ≤ env.now - t)) :
    (gomaIsAuthenticated env cfg (initSt fs)).1 = false := by
  rw [gomaIsAuthenticated_eq env cfg (initSt fs) hsup]
  rcases hstale with ⟨h1, h2⟩ | ⟨c, t, hc, ht, hst⟩
  · rw [getLastKnownLoginTime_val_none h1 h2, hinfo]
    rfl
  · rw [getLastKnownLoginTime_val_some hc, ht, hinfo]
    have hcond : decide (env.now - t < freshnessWindowMs) = false :=
      decide_eq_false (by omega)
    simp [hcond]

/-- Witness for C5: the stale timestamp plus a throwing status query
yields `false`. -/
theorem c5_fallback_failure_witness :
    isSupportedPlatform linuxEnv = true ∧ linuxEnv.gomaAuthInfo = none ∧
      (∃ c t, lookupFile staleFs.files gomaLoginFile = some c ∧ jsParseInt c.data = some t ∧
        freshnessWindowMs ≤ linuxEnv.now - t) ∧
      (gomaIsAuthenticated linuxEnv none (initSt staleFs)).1 = false :=
  ⟨rfl, rfl, ⟨"100", 100, rfl, by decide, by decide⟩,
    c5_fallback_failure linuxEnv none staleFs rfl rfl
      (Or.inr ⟨"100", 100, rfl, by decide, by decide⟩)⟩

/-- C6: the `goma.gn` write is idempotent — `downloadAndPrepareGoma`
writes that file exactly once when it is absent or holds different
contents, and zero times when it already holds the desired contents
(platform supported; on unsupported platforms the whole function is a
no-op, claim C2). -/
theorem c6_gn_write_idempotent (env : SysEnv) (cfg : Option GomaConfig) (fs : FileSys)
    (hsup : isSupportedPlatform env = true) :
    countWritesTo gomaGnFile (downloadAndPrepareGoma env cfg (initSt fs)).2.trace =
      (if lookupFile fs.files gomaGnFile = some gomaGnContents then 0 else 1) := by
  have hgn := gomaGnSync_countWrites_gn (initSt fs)
  have hsha : countWritesTo gomaGnFile
      (shaUpToDate (expectedSha env cfg) (gomaGnSync (initSt fs))).2.trace =
      countWritesTo gomaGnFile (gomaGnSync (initSt fs)).trace := by
    unfold countWritesTo
    rw [shaUpToDate_filter _ _ (isWriteTo gomaGnFile) (fun p => rfl) (fun p => rfl)]
  rw [downloadAndPrepareGoma_eq env cfg (initSt fs) hsup]
  by_cases hc : ((shaUpToDate (expectedSha env cfg) (gomaGnSync (initSt fs))).1 &&
      !env.forceRedownload) = true
  · rw [if_pos hc]
    simp only at hgn ⊢
    rw [hsha, hgn]
    simp [initSt, countWritesTo]
  · rw [if_neg (by simpa using hc)]
    have hpd : countWritesTo gomaGnFile
        (performDownload env (expectedSha env cfg)
          (shaUpToDate (expectedSha env cfg) (gomaGnSync (initSt fs))).2).2.trace =
        countWritesTo gomaGnFile
          (shaUpToDate (expectedSha env cfg) (gomaGnSync (initSt fs))).2.trace := by
      unfold countWritesTo
      rw [performDownload_filter env _ _ (isWriteTo gomaGnFile) (fun p => rfl) (fun p => rfl)
        (fun p => rfl) rfl rfl (fun u d => rfl) (fun s d => rfl)
        (by simp only [isWriteTo]; decide)]
    rw [hpd, hsha, hgn]
    simp [initSt, countWritesTo]

/-- Witness for C6 at a concrete host and empty filesystem (the file
is absent, so exactly one write happens). -/
theorem c6_gn_write_idempotent_witness :
    isSupportedPlatform linuxEnv = true ∧
      countWritesTo gomaGnFile (downloadAndPrepareGoma linuxEnv none (initSt emptyFs)).2.trace =
        (if lookupFile emptyFs.files gomaGnFile = some gomaGnContents then 0 else 1) :=
  ⟨rfl, c6_gn_write_idempotent linuxEnv none emptyFs rfl⟩

/-- C7: whenever the `git status --porcelain` preflight returns a
non-zero status or any non-empty (trimmed) output, the backport run
halts fatally and no checkout, pull, branch-deletion,
branch-creation or cherry-pick git call is ever issued — the git
trace is empty or consists of the status call alone. -/
theorem c7_preflight_clean (inp : BackportInput) (prStr : String)
    (hdirty : ¬ ((inp.git statusArgs).status = some 0) ∨
      ¬ (jsTrim (inp.git statusArgs).stdout = "")) :
    (backportAction inp prStr).1 = .error 1 ∧
      ((backportAction inp prStr).2 = [] ∨ (backportAction inp prStr).2 = [statusArgs]) := by
  unfold backportAction
  cases hp : jsParseInt prStr.data with
  | none => exact ⟨rfl, Or.inl rfl⟩
  | some n =>
    by_cases hv : jsIntToString n = prStr
    · cases hm : inp.pr.merge_commit_sha with
      | none => simp [hv]
      | some mergeSha =>
        by_cases hb : backportTargets inp.pr.labels = []
        · simp [hv, hb]
        · simp only [hv, not_true_eq_false, Bool.false_eq_true, if_false, hb, gitCall,
            List.nil_append]
          rw [if_pos hdirty]
          exact ⟨rfl, Or.inr rfl⟩
    · simp [hv]

/-- Witness for C7: a dirty working tree (` M file.txt`) halts the
run after the status call alone. -/
theorem c7_preflight_clean_witness :
    (¬ ((dirtyInput.git statusArgs).status = some 0) ∨
      ¬ (jsTrim (dirtyInput.git statusArgs).stdout = "")) ∧
      (backportAction dirtyInput ("42")).1 = .error 1 ∧
      ((backportAction dirtyInput ("42")).2 = [] ∨
        (backportAction dirtyInput ("42")).2 = [statusArgs]) :=
  ⟨Or.inr (by decide), c7_preflight_clean dirtyInput ("42") (Or.inr (by decide))⟩

/-- C8: the backport branch name is `manualBpBranch`, a function of
exactly (user login, PR number, target branch); once the preflight,
checkout and pull succeed, the git trace is determined by those
inputs and the oracle — and it contains the deletion of any
pre-existing branch of that name strictly before the creation of the
fresh one, so repeated runs with the same inputs recreate the same
branch instead of accumulating new ones. -/
theorem c8_branch_setup (inp : BackportInput) (prStr : String) (n : Int) (mergeSha : String)
    (hp : jsParseInt prStr.data = some n) (hv : jsIntToString n = prStr)
    (hm : inp.pr.merge_commit_sha = some mergeSha)
    (hb : ¬ (backportTargets inp.pr.labels = []))
    (hst : (inp.git statusArgs).status = some 0)
    (hout : jsTrim (inp.git statusArgs).stdout = "")
    (hco : (inp.git (checkoutArgs inp.chosenBranch)).status = some 0)
    (hpull : (inp.git (pullArgs inp.chosenBranch)).status = some 0) :
    (backportAction inp prStr).2 =
      [statusArgs, checkoutArgs inp.chosenBranch, pullArgs inp.chosenBranch,
        branchDeleteArgs (manualBpBranch inp.user_login n inp.chosenBranch),
        checkoutNewArgs (manualBpBranch inp.user_login n inp.chosenBranch)] ++
      (if (inp.git (checkoutNewArgs (manualBpBranch inp.user_login n
            inp.chosenBranch))).status = some 0
       then [cherryPickArgs mergeSha] else []) ∧
    List.Sublist
      [branchDeleteArgs (manualBpBranch inp.user_login n inp.chosenBranch),
        checkoutNewArgs (manualBpBranch inp.user_login n inp.chosenBranch)]
      (backportAction inp prStr).2 := by
  have htrace : (backportAction inp prStr).2 =
      [statusArgs, checkoutArgs inp.chosenBranch, pullArgs inp.chosenBranch,
        branchDeleteArgs (manualBpBranch inp.user_login n inp.chosenBranch),
        checkoutNewArgs (manualBpBranch inp.user_login n inp.chosenBranch)] ++
      (if (inp.git (checkoutNewArgs (manualBpBranch inp.user_login n
            inp.chosenBranch))).status = some 0
       then [cherryPickArgs mergeSha] else []) := by
    unfold backportAction
    rw [hp]
    simp only [hv, not_true_eq_false, Bool.false_eq_true, if_false, hm, hb, gitCall,
      List.nil_append]
    rw [if_neg (by simp [hst, hout])]
    rw [if_neg (by simp [hco])]
    rw [if_neg (by simp [hpull])]
    by_cases hbb : (inp.git (checkoutNewArgs (manualBpBranch inp.user_login n
        inp.chosenBranch))).status = some 0
    · rw [if_neg (by simp [hbb]), if_pos hbb]
      simp
    · rw [if_pos (by simp [hbb]), if_neg hbb]
      simp
  refine ⟨htrace, ?_⟩
  rw [htrace]
  by_cases hbb : (inp.git (checkoutNewArgs (manualBpBranch inp.user_login n
      inp.chosenBranch))).status = some 0
  · rw [if_pos hbb]
    exact ((((List.nil_sublist _).cons₂ _).cons₂ _).cons _).cons _ |>.cons _
  · rw [if_neg hbb]
    exact ((((List.nil_sublist _).cons₂ _).cons₂ _).cons _).cons _ |>.cons _

/-- Witness for C8: a clean run with PR number 42 produces the
deterministic trace ending in the delete/create pair for
`manual-bp/dev/pr/42/branch/30-x-y` followed by the cherry-pick. -/
theorem c8_branch_setup_witness :
    jsParseInt ("42").data = some 42 ∧ jsIntToString 42 = ("42") ∧
      cleanInput.pr.merge_commit_sha = some ("abc123") ∧
      ¬ (backportTargets cleanInput.pr.labels = []) ∧
      (cleanInput.git statusArgs).status = some 0 ∧
      jsTrim (cleanInput.git statusArgs).stdout = "" ∧
      ((backportAction cleanInput ("42")).2 =
        [statusArgs, checkoutArgs cleanInput.chosenBranch, pullArgs cleanInput.chosenBranch,
          branchDeleteArgs (manualBpBranch cleanInput.user_login 42 cleanInput.chosenBranch),
          checkoutNewArgs (manualBpBranch cleanInput.user_login 42 cleanInput.chosenBranch)] ++
        (if (cleanInput.git (checkoutNewArgs (manualBpBranch cleanInput.user_login 42
              cleanInput.chosenBranch))).status = some 0
         then [cherryPickArgs ("abc123")] else []) ∧
      List.Sublist
        [branchDeleteArgs (manualBpBranch cleanInput.user_login 42 cleanInput.chosenBranch),
          checkoutNewArgs (manualBpBranch cleanInput.user_login 42 cleanInput.chosenBranch)]
        (backportAction cleanInput ("42")).2) :=
  ⟨by decide, by decide, rfl, by decide, rfl, rfl,
    c8_branch_setup cleanInput ("42") 42 ("abc123") (by decide) (by decide) rfl
      (by decide) rfl rfl rfl rfl⟩

/-- C9: the environment composed for the start routine sets
`GOMA_FALLBACK_ON_AUTH_FAILURE` exactly in cache-only mode (explicit
`goma: 'cache-only'` config, or no config and `RAW_GOMA_AUTH` absent)
and sets `GOMA_START_COMPILER_PROXY` exactly when no config is given
and the CI flag is set. -/
theorem c9_env_composition (cfg : Option GomaConfig) (env : SysEnv) :
    ((("GOMA_FALLBACK_ON_AUTH_FAILURE", "true") ∈ gomaEnv cfg env) ↔
        cacheOnlyMode cfg env) ∧
      ((("GOMA_START_COMPILER_PROXY", "true") ∈ gomaEnv cfg env) ↔
        (cfg = none ∧ env.ci = true)) := by
  cases cfg with
  | none =>
    by_cases hr : env.rawGomaAuth = true <;> by_cases hc : env.ci = true <;>
      simp_all [gomaEnv, gomaAuthFailureEnv, gomaCIEnv, cacheOnlyMode]
  | some c =>
    by_cases hg : c.goma = some ("cache-only") <;> by_cases hc : env.ci = true <;>
      simp_all [gomaEnv, gomaAuthFailureEnv, gomaCIEnv, cacheOnlyMode]

theorem downloadAndPrepareGoma_filter (env : SysEnv) (cfg : Option GomaConfig)
    (st : WState) (f : Effect → Bool)
    (hex : ∀ p, f (.existsF p) = false) (hrd : ∀ p, f (.readF p) = false)
    (hmk : ∀ p, f (.mkdirF p) = false) (hdel : ∀ p, f (.deleteF p) = false)
    (hsp1 : f (.spawnP pythonCmd stopArgs) = false)
    (hsp2 : f (.spawnP tarCmd (["zxvf", gomaFilenameOf env])) = false)
    (hdl : ∀ u d, f (.downloadF u d) = false) (huz : ∀ s d, f (.unzipF s d) = false)
    (hwgn : ∀ c, f (.writeF gomaGnFile c) = false)
    (hwsha : f (.writeF gomaShaFile (expectedSha env cfg)) = false) :
    (downloadAndPrepareGoma env cfg st).2.trace.filter f = st.trace.filter f := by
  by_cases hsup : isSupportedPlatform env = true
  · rw [downloadAndPrepareGoma_eq env cfg st hsup]
    by_cases hcond : ((shaUpToDate (expectedSha env cfg) (gomaGnSync st)).1 &&
        !env.forceRedownload) = true
    · rw [if_pos hcond]
      rw [shaUpToDate_filter _ _ f hex hrd, gomaGnSync_filter _ f hex hmk hrd hwgn]
    · rw [if_neg hcond]
      rw [performDownload_filter env _ _ f hex hrd hdel hsp1 hsp2 hdl huz hwsha,
        shaUpToDate_filter _ _ f hex hrd, gomaGnSync_filter _ f hex hmk hrd hwgn]
  · have hs : isSupportedPlatform env = false := by simpa using hsup
    simp [downloadAndPrepareGoma, hs]

theorem gomaIsAuthenticated_filter (env : SysEnv) (cfg : Option GomaConfig)
    (st : WState) (f : Effect → Bool)
    (hex : ∀ p, f (.existsF p) = false) (hrd : ∀ p, f (.readF p) = false)
    (hsp : f (.spawnP pythonCmd infoArgs) = false) :
    (gomaIsAuthenticated env cfg st).2.trace.filter f = st.trace.filter f := by
  by_cases hsup : isSupportedPlatform env = true
  · rw [gomaIsAuthenticated_eq env cfg st hsup]
    have hglk := getLastKnownLoginTime_filter st f hex hrd
    by_cases hfresh : (match (getLastKnownLoginTime st).1 with
        | some (some t) => decide (env.now - t < freshnessWindowMs)
        | _ => false) = true
    · rw [if_pos hfresh]
      exact hglk
    · rw [if_neg hfresh]
      cases env.gomaAuthInfo <;>
        simp [stSpawn, emit, List.filter_append, hsp, hglk]
  · have hs : isSupportedPlatform env = false := by simpa using hsup
    simp [gomaIsAuthenticated, hs]

theorem not_mem_of_filter_beq_nil {e : Effect} {tr : List Effect}
    (h : tr.filter (fun x => x == e) = []) : ¬ (e ∈ tr) := by
  intro hm
  have hmem : e ∈ tr.filter (fun x => x == e) := List.mem_filter.mpr ⟨hm, by simp⟩
  rw [h] at hmem
  exact absurd hmem (List.not_mem_nil e)

theorem authenticateGoma_dl_error (env : SysEnv) (cfg : Option GomaConfig) (st : WState)
    (e : Int) (st2 : WState) (hsup : isSupportedPlatform env = true)
    (hdl : downloadAndPrepareGoma env cfg st = (.error e, st2)) :
    authenticateGoma env cfg st = (.error e, st2) := by
  simp [authenticateGoma, hsup, hdl]

theorem authenticateGoma_dl_ok_authed (env : SysEnv) (cfg : Option GomaConfig) (st : WState)
    (v : Option String) (st2 : WState) (hsup : isSupportedPlatform env = true)
    (hdl : downloadAndPrepareGoma env cfg st = (.ok v, st2))
    (ha : (gomaIsAuthenticated env cfg st2).1 = true) :
    authenticateGoma env cfg st = (.ok (), (gomaIsAuthenticated env cfg st2).2) := by
  simp [authenticateGoma, hsup, hdl, ha]

theorem authenticateGoma_dl_ok_unauth_fail (env : SysEnv) (cfg : Option GomaConfig)
    (st : WState) (v : Option String) (st2 : WState) (hsup : isSupportedPlatform env = true)
    (hdl : downloadAndPrepareGoma env cfg st = (.ok v, st2))
    (ha : (gomaIsAuthenticated env cfg st2).1 = false)
    (hfail : ¬ (env.gomaLoginStatus = some 0)) :
    authenticateGoma env cfg st =
      (.error 1, stSpawn pythonCmd loginArgs (gomaIsAuthenticated env cfg st2).2) := by
  simp [authenticateGoma, hsup, hdl, ha, hfail]

theorem beq_spawnP_of_ne {c1 c2 : String} {a1 a2 : List String}
    (h : ¬ (c1 = c2 ∧ a1 = a2)) :
    ((Effect.spawnP c1 a1 == Effect.spawnP c2 a2)) = false := by
  rw [beq_eq_false_iff_ne]
  intro he
  injection he with h1 h2
  exact h ⟨h1, h2⟩

/-- C10 (counterexample): the recorded login time is not always
unchanged on login failure.  Starting from a stale recorded checksum
and a recorded login time `100`, `authenticateGoma` re-downloads the
client, and the cleanup `rimraf` of the goma directory deletes the
login-timestamp file; the subsequent login fails and the run halts
fatally — yet the recorded login time has changed (it is gone). -/
theorem c10_login_record_counterexample :
    lookupFile staleFs.files gomaLoginFile = some ("100") ∧
      ¬ (linuxEnv.gomaLoginStatus = some 0) ∧
      (authenticateGoma linuxEnv none (initSt staleFs)).1 = .error 1 ∧
      lookupFile (authenticateGoma linuxEnv none (initSt staleFs)).2.fs.files
        gomaLoginFile = none := by
  exact ⟨rfl, by decide, rfl, rfl⟩

/-- C10 (amended): `authenticateGoma` records a login timestamp only
after a successful interactive login — when the login subprocess
exits with a non-zero (or null) status, the whole run never writes
the login-timestamp file, and any run that reached the interactive
login halts fatally; the preparation step may, however, have deleted
a stale timestamp file during a re-download. -/
theorem c10_login_record (env : SysEnv) (cfg : Option GomaConfig) (fs : FileSys)
    (hfail : ¬ (env.gomaLoginStatus = some 0)) :
    (authenticateGoma env cfg (initSt fs)).2.trace.filter (isWriteTo gomaLoginFile) = [] ∧
      (Effect.spawnP pythonCmd loginArgs ∈ (authenticateGoma env cfg (initSt fs)).2.trace →
        (authenticateGoma env cfg (initSt fs)).1 = .error 1) := by
  by_cases hsup : isSupportedPlatform env = true
  · have htarne : ((Effect.spawnP tarCmd (["zxvf", gomaFilenameOf env]) ==
        Effect.spawnP pythonCmd loginArgs)) = false :=
      beq_spawnP_of_ne (fun hpair => absurd hpair.1 (by decide))
    rcases hdl : downloadAndPrepareGoma env cfg (initSt fs) with ⟨res, st2⟩
    have hfil1 : st2.trace.filter (isWriteTo gomaLoginFile) = [] := by
      have h := downloadAndPrepareGoma_filter env cfg (initSt fs) (isWriteTo gomaLoginFile)
        (fun p => rfl) (fun p => rfl) (fun p => rfl) (fun p => rfl) rfl rfl
        (fun u d => rfl) (fun s d => rfl)
        (fun c => by simp only [isWriteTo]; decide)
        (by simp only [isWriteTo]; decide)
      rw [hdl] at h
      simpa [initSt] using h
    have hfil2 : st2.trace.filter
        (fun x => x == Effect.spawnP pythonCmd loginArgs) = [] := by
      have h := downloadAndPrepareGoma_filter env cfg (initSt fs)
        (fun x => x == Effect.spawnP pythonCmd loginArgs)
        (fun p => by simp) (fun p => by simp) (fun p => by simp) (fun p => by simp)
        (by decide) htarne (fun u d => by simp) (fun s d => by simp)
        (fun c => by simp) (by simp)
      rw [hdl] at h
      simpa [initSt] using h
    cases res with
    | error e =>
      rw [authenticateGoma_dl_error env cfg (initSt fs) e st2 hsup hdl]
      exact ⟨hfil1, fun hm => absurd hm (not_mem_of_filter_beq_nil hfil2)⟩
    | ok v =>
      have hfa1 : (gomaIsAuthenticated env cfg st2).2.trace.filter
          (isWriteTo gomaLoginFile) = [] := by
        rw [gomaIsAuthenticated_filter env cfg st2 _ (fun p => rfl) (fun p => rfl) rfl, hfil1]
      have hfa2 : (gomaIsAuthenticated env cfg st2).2.trace.filter
          (fun x => x == Effect.spawnP pythonCmd loginArgs) = [] := by
        rw [gomaIsAuthenticated_filter env cfg st2 _ (fun p => by simp) (fun p => by simp)
          (by decide), hfil2]
      cases hb : (gomaIsAuthenticated env cfg st2).1 with
      | true =>
        rw [authenticateGoma_dl_ok_authed env cfg (initSt fs) v st2 hsup hdl hb]
        exact ⟨hfa1, fun hm => absurd hm (not_mem_of_filter_beq_nil hfa2)⟩
      | false =>
        rw [authenticateGoma_dl_ok_unauth_fail env cfg (initSt fs) v st2 hsup hdl hb hfail]
        refine ⟨?_, fun hm => rfl⟩
        simp [stSpawn, emit, List.filter_append, hfa1, isWriteTo]
  · have hs : isSupportedPlatform env = false := by simpa using hsup
    have hng : authenticateGoma env cfg (initSt fs) = (.ok (), initSt fs) := by
      simp [authenticateGoma, hs]
    rw [hng]
    exact ⟨rfl, fun hm => absurd hm (by simp [initSt])⟩

/-- Witness for C10 (amended) at the concrete failing-login host. -/
theorem c10_login_record_witness :
    (¬ (linuxEnv.gomaLoginStatus = some 0)) ∧
      ((authenticateGoma linuxEnv none (initSt staleFs)).2.trace.filter
        (isWriteTo gomaLoginFile) = [] ∧
      (Effect.spawnP pythonCmd loginArgs ∈
          (authenticateGoma linuxEnv none (initSt staleFs)).2.trace →
        (authenticateGoma linuxEnv none (initSt staleFs)).1 = .error 1)) :=
  ⟨by decide, c10_login_record linuxEnv none staleFs (by decide)⟩
